import Mathlib

set_option maxHeartbeats 1600000
set_option maxRecDepth 4000

/-!
Verification development for the clinical-guardian ground-truth harvester
(src/scripts/gem_groundTruthHarvestor.py).  The Python program is shallowly
embedded: JSON-decoded values become the inductive `JValue`, the persistent
seen-set file becomes an `Option (List Char)` holding the file bytes, HTTP
exchanges become explicit response environments, the wall clock becomes an
explicit date-rendering function, and the random number generators (faker and
random) become an explicit entropy stream `List Nat` that is threaded through
the one record constructor that consumes randomness.  Python exceptions are
modelled with `Except Unit` at exactly the places the source can raise, and
every try/except of the source becomes a `match` on that `Except`.
-/

/-- JSON-like values as produced by `response.json()` in the harvester:
dicts, lists, strings, integers, booleans and None. -/
inductive JValue where
  | null
  | bool (b : Bool)
  | num (n : Int)
  | str (s : String)
  | arr (xs : List JValue)
  | obj (fields : List (String × JValue))
  deriving Repr

mutual

/-- Decidable equality for `JValue` (the derive handler does not manage the
nested lists, so it is spelled out). -/
def JValue.beq : JValue → JValue → Bool
  | .null, .null => true
  | .bool a, .bool b => a == b
  | .num a, .num b => a == b
  | .str a, .str b => a == b
  | .arr xs, .arr ys => JValue.beqList xs ys
  | .obj xs, .obj ys => JValue.beqFields xs ys
  | _, _ => false

/-- Element-wise `JValue.beq` on lists. -/
def JValue.beqList : List JValue → List JValue → Bool
  | [], [] => true
  | x :: xs, y :: ys => JValue.beq x y && JValue.beqList xs ys
  | _, _ => false

/-- Element-wise `JValue.beq` on association lists. -/
def JValue.beqFields : List (String × JValue) → List (String × JValue) → Bool
  | [], [] => true
  | (k1, v1) :: xs, (k2, v2) :: ys => k1 == k2 && JValue.beq v1 v2 && JValue.beqFields xs ys
  | _, _ => false

end

mutual

theorem JValue.beq_refl : ∀ v : JValue, JValue.beq v v = true
  | .null => rfl
  | .bool b => by simp [JValue.beq]
  | .num n => by simp [JValue.beq]
  | .str s => by simp [JValue.beq]
  | .arr xs => by simp [JValue.beq, JValue.beqList_refl xs]
  | .obj fs => by simp [JValue.beq, JValue.beqFields_refl fs]

theorem JValue.beqList_refl : ∀ xs : List JValue, JValue.beqList xs xs = true
  | [] => rfl
  | x :: xs => by simp [JValue.beqList, JValue.beq_refl x, JValue.beqList_refl xs]

theorem JValue.beqFields_refl : ∀ fs : List (String × JValue), JValue.beqFields fs fs = true
  | [] => rfl
  | (k, v) :: fs => by
      simp [JValue.beqFields, JValue.beq_refl v, JValue.beqFields_refl fs]

end

mutual

theorem JValue.eq_of_beq : ∀ a b : JValue, JValue.beq a b = true → a = b
  | .null, b => by cases b <;> simp [JValue.beq]
  | .bool x, b => by cases b <;> simp [JValue.beq]
  | .num x, b => by cases b <;> simp [JValue.beq]
  | .str x, b => by cases b <;> simp [JValue.beq]
  | .arr xs, b => by
      cases b <;> simp [JValue.beq]
      exact JValue.eqList_of_beq xs _
  | .obj fs, b => by
      cases b <;> simp [JValue.beq]
      exact JValue.eqFields_of_beq fs _

theorem JValue.eqList_of_beq : ∀ xs ys : List JValue, JValue.beqList xs ys = true → xs = ys
  | [], ys => by cases ys <;> simp [JValue.beqList]
  | x :: xs, ys => by
      cases ys with
      | nil => simp [JValue.beqList]
      | cons y ys =>
        simp [JValue.beqList]
        intro h1 h2
        exact ⟨JValue.eq_of_beq x y h1, JValue.eqList_of_beq xs ys h2⟩

theorem JValue.eqFields_of_beq :
    ∀ fs gs : List (String × JValue), JValue.beqFields fs gs = true → fs = gs
  | [], gs => by cases gs <;> simp [JValue.beqFields]
  | (k, v) :: fs, gs => by
      cases gs with
      | nil => simp [JValue.beqFields]
      | cons g gs =>
        cases g with
        | mk k2 v2 =>
          simp [JValue.beqFields]
          intro hk hv hrest
          exact ⟨⟨hk, JValue.eq_of_beq v v2 hv⟩, JValue.eqFields_of_beq fs gs hrest⟩

end

instance : DecidableEq JValue := fun a b =>
  if h : JValue.beq a b = true then
    Decidable.isTrue (JValue.eq_of_beq a b h)
  else
    Decidable.isFalse (fun he => h (he ▸ JValue.beq_refl a))

/-- Python `str.isdigit` restricted to the ASCII digits the harvester's paths
use (Python additionally accepts exotic Unicode digit characters, which never
occur in the hard-coded dotted paths of this program). -/
def pyIsDigit (s : String) : Bool :=
  s.length != 0 && s.toList.all Char.isDigit

/-- Numeric value of an all-digit string (Python `int(key)` under the
`key.isdigit()` guard). -/
def digitsVal (s : String) : Nat :=
  s.toList.foldl (fun a c => a * 10 + (c.toNat - 48)) 0

/-- Worker for `pySplitDots`. -/
def splitDotsGo : List Char → List (List Char)
  | [] => [[]]
  | c :: cs =>
    if c = '.' then [] :: splitDotsGo cs
    else
      match splitDotsGo cs with
      | [] => [[c]]
      | l :: ls => (c :: l) :: ls

/-- Python `path.split(DOT)`: splits on every dot and keeps empty pieces,
so the empty path gives one empty segment. -/
def pySplitDots (path : String) : List String :=
  (splitDotsGo path.toList).map String.mk

/-- First-match lookup in a JSON object's field list (Python `dict.get`,
without its default). -/
def jGet? (fields : List (String × JValue)) (k : String) : Option JValue :=
  match fields with
  | [] => none
  | (k2, v) :: rest => if k2 = k then some v else jGet? rest k

/-- The key loop of `safe_extract_json_value` (lines 89-97).  `none` models the
paths on which the Python loop leaves early: the `else: return default` branch
and the `IndexError` raised by `result[int(key)]` (the surrounding
`try/except` maps both to the default). -/
def extractKeys (default : JValue) : List String → JValue → Option JValue
  | [], result => some result
  | key :: rest, result =>
    match result with
    | JValue.arr xs =>
      if pyIsDigit key then
        match xs.get? (digitsVal key) with
        | some v => extractKeys default rest v
        | none => none
      else none
    | JValue.obj fields =>
      extractKeys default rest ((jGet? fields key).getD default)
    | _ => none

/-- `safe_extract_json_value(data, path, default)` (lines 86-100): split the
dotted path, walk the structure, and post-process with
`result if result is not None else default`. -/
def safe_extract_json_value (data : JValue) (path : String)
    (default : JValue := JValue.str "") : JValue :=
  match extractKeys default (pySplitDots path) data with
  | some r => if r = JValue.null then default else r
  | none => default

/-- Strict path lookup, the reading of the extractor contract in the spec:
succeeds only when every path segment actually resolves (mapping key present,
or sequence index in range for a purely numeric segment). -/
def lookupPath : JValue → List String → Option JValue
  | v, [] => some v
  | JValue.arr xs, key :: rest =>
    if pyIsDigit key then (xs.get? (digitsVal key)).bind (fun v => lookupPath v rest)
    else none
  | JValue.obj fields, key :: rest =>
    (jGet? fields key).bind (fun v => lookupPath v rest)
  | _, _ :: _ => none

/-- A value Python can descend into by key or index. -/
def JValue.indexable : JValue → Bool
  | .arr _ => true
  | .obj _ => true
  | _ => false

/-- Python truthiness of a JSON-decoded value (`if x:`). -/
def pyTruthy : JValue → Bool
  | .null => false
  | .bool b => b
  | .num n => n != 0
  | .str s => s ≠ ""
  | .arr xs => xs ≠ []
  | .obj fs => fs ≠ []

mutual

/-- Python `str()` of a JSON-decoded value, as used by the f-strings of the
record constructors.  For strings it is the identity; for the container and
scalar cases it renders the `repr` forms Python would produce. -/
def pyStr : JValue → String
  | .str s => s
  | v => pyRepr v

/-- Python `repr()` of a JSON-decoded value. -/
def pyRepr : JValue → String
  | .null => "None"
  | .bool b => if b then "True" else "False"
  | .num n => toString n
  | .str s => String.singleton (Char.ofNat 39) ++ s ++ String.singleton (Char.ofNat 39)
  | .arr xs => "[" ++ pyReprList xs ++ "]"
  | .obj fs => "\x7b" ++ pyReprFields fs ++ "\x7d"

/-- Comma-separated `repr` of list elements. -/
def pyReprList : List JValue → String
  | [] => ""
  | [x] => pyRepr x
  | x :: xs => pyRepr x ++ ", " ++ pyReprList xs

/-- Comma-separated `repr` of dict items. -/
def pyReprFields : List (String × JValue) → String
  | [] => ""
  | [(k, v)] =>
    String.singleton (Char.ofNat 39) ++ k ++ String.singleton (Char.ofNat 39) ++ ": " ++ pyRepr v
  | (k, v) :: fs =>
    String.singleton (Char.ofNat 39) ++ k ++ String.singleton (Char.ofNat 39) ++ ": " ++ pyRepr v
      ++ ", " ++ pyReprFields fs

end

/-- Python `sep.join(xs)` over JSON values: raises `TypeError` (modelled by
`Except.error`) unless every element is a string. -/
def pyJoin (sep : String) (xs : List JValue) : Except Unit String :=
  match xs with
  | [] => Except.ok ""
  | JValue.str s :: rest =>
    match pyJoin sep rest, rest with
    | Except.ok _, [] => Except.ok s
    | Except.ok r, _ :: _ => Except.ok (s ++ sep ++ r)
    | Except.error e, _ => Except.error e
  | _ :: _ => Except.error ()

/-- Does the needle match at the head of the haystack? -/
def subAt : List Char → List Char → Bool
  | [], _ => true
  | _ :: _, [] => false
  | n :: ns, h :: hs => n = h && subAt ns hs

/-- Python substring membership `needle in haystack` over the characters. -/
def hasSub (ns : List Char) : List Char → Bool
  | [] => subAt ns []
  | h :: hs => subAt ns (h :: hs) || hasSub ns hs

/-- Python `key in data` for a JSON value: key membership for dicts, element
membership for lists, substring test for strings, `TypeError` otherwise. -/
def jContains (data : JValue) (key : String) : Except Unit Bool :=
  match data with
  | JValue.obj fs => Except.ok (jGet? fs key).isSome
  | JValue.arr xs => Except.ok (xs.contains (JValue.str key))
  | JValue.str s => Except.ok (hasSub key.toList s.toList)
  | _ => Except.error ()

/-- Python `data[key]` with a string key: dict indexing only (`KeyError` or
`TypeError` otherwise). -/
def jIndexStr (data : JValue) (key : String) : Except Unit JValue :=
  match data with
  | JValue.obj fs =>
    match jGet? fs key with
    | some v => Except.ok v
    | none => Except.error ()
  | _ => Except.error ()

/-- Python `len(v)`: defined for lists, dicts and strings, `TypeError`
otherwise. -/
def jLen (v : JValue) : Except Unit Nat :=
  match v with
  | JValue.arr xs => Except.ok xs.length
  | JValue.obj fs => Except.ok fs.length
  | JValue.str s => Except.ok s.length
  | _ => Except.error ()

/-- Python `v[:n]` followed by iteration, as in `for item in results[:8]`:
lists slice to lists, strings slice to their one-character strings,
everything else raises `TypeError`. -/
def pySlice (v : JValue) (n : Nat) : Except Unit (List JValue) :=
  match v with
  | JValue.arr xs => Except.ok (xs.take n)
  | JValue.str s => Except.ok ((s.toList.take n).map (fun c => JValue.str (String.singleton c)))
  | _ => Except.error ()

/-- Python `v[:n]` kept as a value, as in `product_description[:100]`. -/
def pySliceJ (v : JValue) (n : Nat) : Except Unit JValue :=
  match v with
  | JValue.arr xs => Except.ok (JValue.arr (xs.take n))
  | JValue.str s => Except.ok (JValue.str (String.mk (s.toList.take n)))
  | _ => Except.error ()

/-- Values Python may use as dict keys; lists and dicts raise `TypeError`
when looked up in a dict (`risk_level_map.get(recall_class, ...)`). -/
def jHashable : JValue → Bool
  | .arr _ => false
  | .obj _ => false
  | _ => true

/-- Python `s[:n]` on an honest string. -/
def pyTake (s : String) (n : Nat) : String :=
  String.mk (s.toList.take n)

/-- Python `str.replace(old, new)` specialised to the single-character
replacement `category.replace(UNDERSCORE, SPACE)` the source performs. -/
def pyReplaceUnderscore (s : String) : String :=
  String.mk (s.toList.map (fun c => if c = '_' then ' ' else c))

/-- Worker for `pyTitle`: tracks whether the previous character was
alphabetic. -/
def pyTitleGo : Bool → List Char → List Char
  | _, [] => []
  | prevAlpha, c :: cs =>
    (if c.isAlpha then (if prevAlpha then c.toLower else c.toUpper) else c)
      :: pyTitleGo c.isAlpha cs

/-- Python `str.title()` restricted to ASCII, as used on the drug category
names. -/
def pyTitle (s : String) : String :=
  String.mk (pyTitleGo false s.toList)

/-- Defaults from which the key loop cannot escape: scalars (not indexable
at all) and the empty containers (indexable, but every key or index misses,
so the loop falls back to the default again or returns it).  Every call
site of the program passes such a default: a string literal, `0`, or the
empty list. -/
def JValue.absorbingDefault : JValue → Bool
  | .arr xs => xs = []
  | .obj fs => fs = []
  | _ => true

/-- When the default is absorbing, feeding it back into the key loop (as the
Python code does after a missed dict key) can only produce the default
itself or an early return of the default. -/
theorem extractKeys_default_self (default : JValue)
    (hd : default.absorbingDefault = true) :
    ∀ keys : List String,
      (match extractKeys default keys default with
       | some r => if r = JValue.null then default else r
       | none => default) = default := by
  intro keys
  induction keys with
  | nil =>
    simp only [extractKeys]
    split <;> simp
  | cons k rest ih =>
    cases default with
    | null => simp [extractKeys]
    | bool b => simp [extractKeys]
    | num n => simp [extractKeys]
    | str s => simp [extractKeys]
    | arr xs =>
      have hxs : xs = [] := by
        simpa [JValue.absorbingDefault] using hd
      subst hxs
      cases hk : pyIsDigit k <;> simp [extractKeys, hk]
    | obj fs =>
      have hfs : fs = [] := by
        simpa [JValue.absorbingDefault] using hd
      subst hfs
      simpa only [extractKeys, jGet?, Option.getD_none] using ih

/-- Core of the corrected extractor contract: with an absorbing default,
`safe_extract_json_value` agrees with the strict path lookup, returning the
default exactly on lookup failure or a `None` result. -/
theorem extractKeys_eq_lookupPath (default : JValue)
    (hd : default.absorbingDefault = true) :
    ∀ (keys : List String) (d : JValue),
      (match extractKeys default keys d with
       | some r => if r = JValue.null then default else r
       | none => default)
      = (match lookupPath d keys with
         | some r => if r = JValue.null then default else r
         | none => default) := by
  intro keys
  induction keys with
  | nil => intro d; simp [extractKeys, lookupPath]
  | cons k rest ih =>
    intro d
    cases d with
    | null => simp [extractKeys, lookupPath]
    | bool b => simp [extractKeys, lookupPath]
    | num n => simp [extractKeys, lookupPath]
    | str s => simp [extractKeys, lookupPath]
    | arr xs =>
      by_cases hk : pyIsDigit k = true
      · simp only [extractKeys, lookupPath, hk, if_true]
        cases hx : xs.get? (digitsVal k) with
        | none => simp
        | some v => simpa using ih v
      · simp [extractKeys, lookupPath, hk]
    | obj fs =>
      cases hg : jGet? fs k with
      | some v =>
        simp only [extractKeys, lookupPath, hg, Option.getD_some, Option.bind_some]
        exact ih v
      | none =>
        simp only [extractKeys, lookupPath, hg, Option.getD_none, Option.bind_none]
        exact extractKeys_default_self default hd rest

/-- C2 (counterexample): the claim quantifies over every default value, but
with a nonempty indexable default the walk continues inside the default
after an absent segment, so a value derived from the default - not the
default - can be returned.  Here segment `a` is absent from the empty dict,
yet the call returns `5` instead of the default. -/
theorem C2_counterexample :
    safe_extract_json_value (JValue.obj []) "a.b" (JValue.obj [("b", JValue.num 5)])
      = JValue.num 5 ∧
    JValue.num 5 ≠ JValue.obj [("b", JValue.num 5)] := by
  refine ⟨by decide, by decide⟩

/-- C2 (amended): for every structure `d`, dotted path `p` and default that
is a scalar or an empty container (which covers every call site of the
program: the defaults actually passed are string literals, the number `0`
at line 387, and the empty list `[]` at lines 239, 372, 375, 384 and 430),
`safe_extract_json_value` never raises - it is a total function agreeing
with the strict path lookup - and returns the default whenever some path
segment is absent, the current value is not indexable the expected way, or
the resolved value is `None`.  A nonempty container default breaks this:
see the counterexample. -/
theorem C2_extract_amended (d : JValue) (p : String) (default : JValue)
    (hd : default.absorbingDefault = true) :
    safe_extract_json_value d p default =
      (match lookupPath d (pySplitDots p) with
       | some r => if r = JValue.null then default else r
       | none => default) := by
  unfold safe_extract_json_value
  exact extractKeys_eq_lookupPath default hd (pySplitDots p) d

/-- C2 (witness): concrete run of the amended theorem at a real call-site
default - the empty list passed for path `patient.drug` (line 239).  The
`patient` key is absent, so the call returns the empty-list default itself,
not a value derived from it. -/
theorem C2_witness :
    JValue.absorbingDefault (JValue.arr []) = true ∧
    safe_extract_json_value (JValue.obj [("safetyreportid", JValue.str "X")])
      "patient.drug" (JValue.arr []) = JValue.arr [] := by
  refine ⟨rfl, ?_⟩
  rw [C2_extract_amended (JValue.obj [("safetyreportid", JValue.str "X")])
    "patient.drug" (JValue.arr []) rfl]
  decide

/-- Python iteration over the lines of a file: the content is cut at every
newline, and the (empty) piece after a final newline - which Python does not
yield as a line - is dropped.  Each returned piece is the line without its
terminator, which is equivalent up to the `strip()` the loader applies. -/
def splitLines : List Char → List (List Char)
  | [] => []
  | c :: cs =>
    if c = '\n' then [] :: splitLines cs
    else
      match splitLines cs with
      | [] => [[c]]
      | l :: ls => (c :: l) :: ls

/-- Python `str.strip()` with no argument: whitespace removed from both ends
(Python also strips the rare `\x0b`/`\x0c` characters, which never occur in
URL data). -/
def pyStrip (l : List Char) : List Char :=
  ((l.dropWhile Char.isWhitespace).reverse.dropWhile Char.isWhitespace).reverse

/-- `load_seen_urls` (lines 102-108): empty set when the backing file does
not exist, otherwise the set comprehension over the stripped lines of the
file.  The file is modelled as `Option (List Char)`: `none` when absent,
otherwise its character content. -/
def load_seen_urls : Option (List Char) → Finset String
  | none => ∅
  | some content => ((splitLines content).map (fun l => String.mk (pyStrip l))).toFinset

/-- `save_seen_urls` (lines 110-117): no-op on an empty url collection,
otherwise open in append mode (creating the file) and write one
newline-terminated line per url.  The urls are passed as a list giving the
iteration order of the Python set, which the resulting file set never
depends on. -/
def save_seen_urls (fs : Option (List Char)) (new_urls : List String) : Option (List Char) :=
  if new_urls = [] then fs
  else some ((fs.getD []) ++ (new_urls.map (fun u => u.data ++ ['\n'])).flatten)

/-- File contents that end at a line boundary (empty, or final newline). -/
def terminated : Option (List Char) → Prop
  | none => True
  | some l => l = [] ∨ l.getLast? = some '\n'

instance : DecidablePred terminated := fun fs => by
  cases fs with
  | none => exact .isTrue trivial
  | some l => unfold terminated; infer_instance

/-- A string that survives the round trip through the seen-urls file:
stripping it is the identity and it spans no line boundary. -/
def cleanUrl (u : String) : Prop :=
  pyStrip u.data = u.data ∧ '\n' ∉ u.data

instance : DecidablePred cleanUrl := fun u => by
  unfold cleanUrl; infer_instance

theorem splitLines_cons (c : Char) (cs : List Char) :
    splitLines (c :: cs) =
      if c = '\n' then [] :: splitLines cs
      else
        match splitLines cs with
        | [] => [[c]]
        | l :: ls => (c :: l) :: ls := rfl

theorem splitLines_ne_nil (c : Char) (cs : List Char) : splitLines (c :: cs) ≠ [] := by
  rw [splitLines_cons]
  by_cases h : c = '\n' <;> simp [h]
  cases splitLines cs <;> simp

theorem splitLines_append_newline :
    ∀ (a b : List Char), splitLines (a ++ '\n' :: b) = splitLines (a ++ ['\n']) ++ splitLines b := by
  intro a
  induction a with
  | nil =>
    intro b
    simp only [List.nil_append]
    rw [splitLines_cons]
    simp [splitLines]
  | cons c cs ih =>
    intro b
    rw [List.cons_append, List.cons_append,
      splitLines_cons c (cs ++ '\n' :: b), splitLines_cons c (cs ++ ['\n'])]
    rw [ih b]
    by_cases hc : c = '\n'
    · simp [hc]
    · simp only [if_neg hc]
      cases hsp : splitLines (cs ++ ['\n']) with
      | nil =>
        cases cs with
        | nil => simp [splitLines] at hsp
        | cons x xs => exact absurd hsp (splitLines_ne_nil x (xs ++ ['\n']))
      | cons l ls => simp

theorem eq_dropLast_append_getLast? :
    ∀ (l : List Char) (c : Char), l.getLast? = some c → l = l.dropLast ++ [c] := by
  intro l
  induction l with
  | nil => intro c h; simp at h
  | cons x xs ih =>
    intro c h
    cases xs with
    | nil => simp_all
    | cons y ys =>
      rw [List.getLast?_cons_cons] at h
      have := ih c h
      calc x :: y :: ys = x :: ((y :: ys).dropLast ++ [c]) := by rw [← this]
        _ = (x :: y :: ys).dropLast ++ [c] := by simp

theorem splitLines_append_terminated (a b : List Char) (h : a.getLast? = some '\n') :
    splitLines (a ++ b) = splitLines a ++ splitLines b := by
  have ha : a = a.dropLast ++ ['\n'] := eq_dropLast_append_getLast? a _ h
  rw [ha, List.append_assoc, List.singleton_append, splitLines_append_newline]

theorem splitLines_cleanline (u : List Char) (rest : List Char) (h : '\n' ∉ u) :
    splitLines (u ++ '\n' :: rest) = u :: splitLines rest := by
  induction u with
  | nil =>
    simp only [List.nil_append]
    rw [splitLines_cons]
    simp
  | cons c cs ih =>
    have hc : c ≠ '\n' := fun he => h (he ▸ List.mem_cons_self c cs)
    have hcs : '\n' ∉ cs := fun hm => h (List.mem_cons_of_mem c hm)
    rw [List.cons_append, splitLines_cons, if_neg hc, ih hcs]

theorem splitLines_joined_urls :
    ∀ urls : List String, (∀ u ∈ urls, '\n' ∉ u.data) →
      splitLines ((urls.map (fun u => u.data ++ ['\n'])).flatten) =
        urls.map (fun u => u.data) := by
  intro urls
  induction urls with
  | nil => intro _; simp [splitLines]
  | cons u us ih =>
    intro h
    have h1 : '\n' ∉ u.data := h u (List.mem_cons_self u us)
    have h2 : ∀ v ∈ us, '\n' ∉ v.data := fun v hv => h v (List.mem_cons_of_mem u hv)
    simp only [List.map_cons, List.flatten_cons, List.append_assoc, List.singleton_append]
    rw [splitLines_cleanline u.data _ h1, ih h2]

theorem mk_pyStrip_clean (u : String) (h : cleanUrl u) :
    String.mk (pyStrip u.data) = u := by
  rw [h.1]

/-- Round trip through the seen-urls file: appending clean urls to a
line-terminated (or absent) file makes the loaded set exactly the old set
united with the new urls. -/
theorem load_save_roundtrip (fs : Option (List Char)) (urls : List String)
    (hterm : terminated fs) (hclean : ∀ u ∈ urls, cleanUrl u) :
    load_seen_urls (save_seen_urls fs urls) = load_seen_urls fs ∪ urls.toFinset := by
  by_cases hnil : urls = []
  · subst hnil
    simp [save_seen_urls]
  · unfold save_seen_urls
    rw [if_neg hnil]
    have hnl : ∀ u ∈ urls, '\n' ∉ u.data := fun u hu => (hclean u hu).2
    have hmap : urls.map (fun u => String.mk (pyStrip u.data)) = urls := by
      conv_rhs => rw [← List.map_id urls]
      exact List.map_congr_left (fun u hu => mk_pyStrip_clean u (hclean u hu))
    cases fs with
    | none =>
      simp only [load_seen_urls, Option.getD_none, List.nil_append]
      rw [splitLines_joined_urls urls hnl, List.map_map]
      rw [show ((fun l => String.mk (pyStrip l)) ∘ fun u : String => u.data)
            = (fun u : String => String.mk (pyStrip u.data)) from rfl, hmap]
      simp
    | some content =>
      rcases hterm with hemp | hlast
      · subst hemp
        simp only [load_seen_urls, Option.getD_some, List.nil_append]
        rw [splitLines_joined_urls urls hnl, List.map_map]
        rw [show ((fun l => String.mk (pyStrip l)) ∘ fun u : String => u.data)
              = (fun u : String => String.mk (pyStrip u.data)) from rfl, hmap]
        simp [splitLines]
      · simp only [load_seen_urls, Option.getD_some]
        rw [splitLines_append_terminated content _ hlast, List.map_append,
          List.toFinset_append, splitLines_joined_urls urls hnl, List.map_map]
        rw [show ((fun l => String.mk (pyStrip l)) ∘ fun u : String => u.data)
              = (fun u : String => String.mk (pyStrip u.data)) from rfl, hmap]

/-- C3 (counterexample): the claim fails for arbitrary files and string sets.
First conjunct: appending to a file whose last line is unterminated merges
the old last line with the first appended url, losing both (`a` plus append
`b` loads as only `ab`).  Second conjunct: a url carrying leading whitespace
is stripped on load, so the appended set is not recovered. -/
theorem C3_counterexample :
    ¬ (load_seen_urls (some ['a']) ∪ (["b"] : List String).toFinset ⊆
        load_seen_urls (save_seen_urls (some ['a']) ["b"])) ∧
    ¬ (load_seen_urls none ∪ ([" c"] : List String).toFinset ⊆
        load_seen_urls (save_seen_urls none [" c"])) := by
  constructor
  · decide
  · decide

/-- C3 (amended): seen-set append is monotonic with no loss - after
`save_seen_urls fs X` the loaded set contains the previously loaded set and
all of X - provided the existing file content ends at a line boundary (which
every file produced by `save_seen_urls` does) and every url in X is free of
surrounding whitespace and embedded newlines (which every url built by the
harvesters is); in fact the loaded set is then exactly the union.  Append
never rewrites or truncates existing content: the new file content extends
the old one. -/
theorem C3_append_monotonic_amended (fs : Option (List Char)) (urls : List String)
    (hterm : terminated fs) (hclean : ∀ u ∈ urls, cleanUrl u) :
    (load_seen_urls fs ∪ urls.toFinset ⊆ load_seen_urls (save_seen_urls fs urls)) ∧
    load_seen_urls (save_seen_urls fs urls) = load_seen_urls fs ∪ urls.toFinset ∧
    ∃ tail, (save_seen_urls fs urls).getD [] = fs.getD [] ++ tail := by
  refine ⟨?_, load_save_roundtrip fs urls hterm hclean, ?_⟩
  · rw [load_save_roundtrip fs urls hterm hclean]
  · unfold save_seen_urls
    by_cases hnil : urls = []
    · exact ⟨[], by simp [hnil]⟩
    · exact ⟨(urls.map (fun u => u.data ++ ['\n'])).flatten, by rw [if_neg hnil]; rfl⟩

/-- C3 (witness): concrete append of `b` to a well-formed one-line file. -/
theorem C3_witness :
    terminated (some ['a', '\n']) ∧ cleanUrl "b" ∧
    load_seen_urls (save_seen_urls (some ['a', '\n']) ["b"]) =
      load_seen_urls (some ['a', '\n']) ∪ (["b"] : List String).toFinset := by
  refine ⟨by decide, by decide, ?_⟩
  exact (C3_append_monotonic_amended (some ['a', '\n']) ["b"] (by decide)
    (by intro u hu; simp at hu; subst hu; decide)).2.1

/-- C4 (counterexample): the claim says empty or whitespace-only lines
contribute no element, but the loader's set comprehension keeps their
stripped form - the empty string - as an element: a file holding a single
newline loads to a non-empty set. -/
theorem C4_counterexample :
    ("" : String) ∈ load_seen_urls (some ['\n']) ∧
    load_seen_urls (some ['\n']) ≠ (∅ : Finset String) := by
  constructor
  · decide
  · decide

/-- C4 (amended): `load_seen_urls` returns the empty set when the backing
file does not exist, and otherwise exactly one element per distinct stripped
line of the file - so empty or whitespace-only lines contribute the empty
string as an element rather than nothing. -/
theorem C4_load_amended :
    load_seen_urls none = (∅ : Finset String) ∧
    ∀ (content : List Char) (s : String),
      s ∈ load_seen_urls (some content) ↔
        ∃ l ∈ splitLines content, String.mk (pyStrip l) = s := by
  constructor
  · rfl
  · intro content s
    simp [load_seen_urls]

/-- The canonical output record (the dict literals of the record creation
functions; `adverse_event_count` is the only non-string value ever stored). -/
structure CanonicalRecord where
  drug_name : String
  device_name : String
  condition : String
  old_dosage : String
  new_dosage : String
  old_warning : String
  new_warning : String
  old_indication : String
  new_indication : String
  recall_reason : String
  risk_level : String
  fda_approval_date : String
  update_date : String
  source_url : String
  ndc_code : String
  clinical_trial_id : String
  patient_population : String
  contraindications : String
  adverse_events : String
  mechanism_of_action : String
  therapeutic_class : String
  manufacturer : String
  regulatory_status : String
  clinical_significance : String
  patient_safety_impact : String
  compliance_deadline : String
  adverse_event_count : Nat
  recall_class : String
  trial_phase : String
  study_status : String
  deriving Repr, DecidableEq

/-- `FIELDNAMES` (lines 71-80): the CSV header, in source order. -/
def FIELDNAMES : List String :=
  ["drug_name", "device_name", "condition", "old_dosage", "new_dosage",
   "old_warning", "new_warning", "old_indication", "new_indication",
   "recall_reason", "risk_level", "fda_approval_date", "update_date",
   "source_url", "ndc_code", "clinical_trial_id", "patient_population",
   "contraindications", "adverse_events", "mechanism_of_action",
   "therapeutic_class", "manufacturer", "regulatory_status",
   "clinical_significance", "patient_safety_impact", "compliance_deadline",
   "adverse_event_count", "recall_class", "trial_phase", "study_status"]

/-- The canonical attribute list in the order given by section 3 of the
spec, written from the spec text (for comparison against `FIELDNAMES`). -/
def specSection3Fields : List String :=
  ["drug_name", "device_name", "condition", "old_dosage", "new_dosage",
   "old_warning", "new_warning", "old_indication", "new_indication",
   "recall_reason", "risk_level", "fda_approval_date", "update_date",
   "source_url", "ndc_code", "clinical_trial_id", "patient_population",
   "contraindications", "adverse_events", "mechanism_of_action",
   "therapeutic_class", "manufacturer", "regulatory_status",
   "clinical_significance", "patient_safety_impact", "compliance_deadline",
   "adverse_event_count", "recall_class", "trial_phase", "study_status"]

/-- One CSV data row: the record's values in `FIELDNAMES` order, as the
`csv.DictWriter` renders them (`str()` of each value). -/
def recordRow (r : CanonicalRecord) : List String :=
  [r.drug_name, r.device_name, r.condition, r.old_dosage, r.new_dosage,
   r.old_warning, r.new_warning, r.old_indication, r.new_indication,
   r.recall_reason, r.risk_level, r.fda_approval_date, r.update_date,
   r.source_url, r.ndc_code, r.clinical_trial_id, r.patient_population,
   r.contraindications, r.adverse_events, r.mechanism_of_action,
   r.therapeutic_class, r.manufacturer, r.regulatory_status,
   r.clinical_significance, r.patient_safety_impact, r.compliance_deadline,
   toString r.adverse_event_count, r.recall_class, r.trial_phase, r.study_status]

/-- The CSV file written by `main` (lines 722-725): the canonical header
followed by one row per batch record, modelled as the list of cell rows. -/
def writeCsv (batch : List CanonicalRecord) : List (List String) :=
  FIELDNAMES :: batch.map recordRow

/-- The wall clock, made explicit: `clk k` stands for
`(datetime.now() + timedelta(days=k)).strftime(DATEFMT)`, so `clk 0` is
today's rendered date. -/
abbrev Clock := Int → String

/-- One draw from the explicit entropy stream standing in for the global
`random`/`faker` generator state. -/
def drawNat : List Nat → Nat × List Nat
  | [] => (0, [])
  | n :: rest => (n, rest)

/-- Model of `random.randint(lo, hi)` / `FAKER.random_int(lo, hi)`
(inclusive bounds) over the explicit entropy stream. -/
def pyRandInt (lo hi : Nat) (rng : List Nat) : Nat × List Nat :=
  let p := drawNat rng
  (lo + p.1 % (hi + 1 - lo), p.2)

/-- Model of `FAKER.random_element(xs)` over the explicit entropy stream. -/
def randElem (xs : List String) (rng : List Nat) : String × List Nat :=
  let p := drawNat rng
  (xs.getD (p.1 % xs.length) "", p.2)

/-- Model of `FAKER.company()`: an opaque external generator that consumes
one draw of entropy. -/
def fakerCompany (rng : List Nat) : String × List Nat :=
  let p := drawNat rng
  ("Faker Company " ++ toString p.1, p.2)

/-- `create_clinical_trial_v2_record` (lines 366-420).  The `join`s over
extracted lists can raise `TypeError` on non-string elements, which the
per-item handler in the harvester catches (`Except.error`); the error
branches of the three fallible sub-computations are merged, which preserves
the observable outcome since the caught exception carries no data. -/
def create_clinical_trial_v2_record (study : JValue) (source_url : String)
    (clk : Clock) : Except Unit CanonicalRecord :=
  let nct_id := safe_extract_json_value study "protocolSection.identificationModule.nctId"
  let brief_title := safe_extract_json_value study "protocolSection.identificationModule.briefTitle"
  let overall_status := safe_extract_json_value study "protocolSection.statusModule.overallStatus"
  let conditions := safe_extract_json_value study "protocolSection.conditionsModule.conditions"
    (JValue.arr [])
  let condition_nameE : Except Unit String :=
    match conditions with
    | JValue.arr xs => pyJoin ", " xs
    | v => Except.ok (pyStr v)
  let interventions := safe_extract_json_value study
    "protocolSection.armsInterventionsModule.interventions" (JValue.arr [])
  let drug_names : List JValue :=
    match interventions with
    | JValue.arr xs =>
      xs.foldl (fun acc intervention =>
        match intervention with
        | JValue.obj fs =>
          let name := (jGet? fs "name").getD (JValue.str "")
          if pyTruthy name then acc ++ [name] else acc
        | _ => acc) []
    | _ => []
  let phases := safe_extract_json_value study "protocolSection.designModule.phases"
    (JValue.arr [])
  let phaseE : Except Unit String :=
    match phases with
    | JValue.arr xs => pyJoin ", " xs
    | v => Except.ok (pyStr v)
  let enrollment_count := safe_extract_json_value study
    "protocolSection.designModule.enrollmentInfo.count" (JValue.num 0)
  let drugFieldE : Except Unit String :=
    if drug_names ≠ [] then pyJoin ", " (drug_names.take 3) else Except.ok ""
  match condition_nameE, phaseE, drugFieldE with
  | Except.ok condition_name, Except.ok phase, Except.ok drugField =>
    Except.ok
      { drug_name := drugField
        device_name := ""
        condition := pyTake condition_name 100
        old_dosage := "Study protocol dosing"
        new_dosage := "Updated protocol based on interim results"
        old_warning := "Standard study precautions"
        new_warning := "Enhanced safety monitoring based on trial data"
        old_indication := "Investigational use"
        new_indication := "Clinical trial evidence for " ++ condition_name
        recall_reason := ""
        risk_level := "Medium"
        fda_approval_date := ""
        update_date := clk 0
        source_url := source_url
        ndc_code := ""
        clinical_trial_id := pyStr nct_id
        patient_population := "Clinical trial participants (n=" ++ pyStr enrollment_count ++ ")"
        contraindications := "Per trial protocol"
        adverse_events := "As reported in trial monitoring"
        mechanism_of_action := "Under clinical investigation"
        therapeutic_class := "Clinical Trial"
        manufacturer := pyStr (safe_extract_json_value study
          "protocolSection.sponsorCollaboratorsModule.leadSponsor.name" (JValue.str "Trial Sponsor"))
        regulatory_status := pyStr overall_status
        clinical_significance := "Clinical trial evidence: " ++ pyStr brief_title
        patient_safety_impact := "Clinical trial safety monitoring"
        compliance_deadline := clk 90
        adverse_event_count := 0
        recall_class := ""
        trial_phase := phase
        study_status := pyStr overall_status }
  | _, _, _ => Except.error ()

/-- `create_adverse_event_record` (lines 422-472).  The three `join`s over
the extracted reaction terms raise `TypeError` on non-string elements; the
per-item handler in the harvester catches the raise, so the error branches
are merged. -/
def create_adverse_event_record (event : JValue) (drug_name : JValue)
    (source_url : String) (clk : Clock) : Except Unit CanonicalRecord :=
  let serious := safe_extract_json_value event "serious" (JValue.str "0")
  let seriousnessother := safe_extract_json_value event "seriousnessother" (JValue.str "0")
  let patient_age := safe_extract_json_value event "patient.patientonsetage" (JValue.str "unknown")
  let patient_sex := safe_extract_json_value event "patient.patientsex" (JValue.str "unknown")
  let reactions := safe_extract_json_value event "patient.reaction" (JValue.arr [])
  let reaction_list : List JValue :=
    match reactions with
    | JValue.arr xs =>
      (xs.take 3).foldl (fun acc reaction =>
        match reaction with
        | JValue.obj fs =>
          let term := (jGet? fs "reactionmeddrapt").getD (JValue.str "")
          if pyTruthy term then acc ++ [term] else acc
        | _ => acc) []
    | _ => []
  let risk_level :=
    if serious = JValue.str "1" then "Critical"
    else if seriousnessother = JValue.str "1" then "High" else "Medium"
  let conditionFieldE : Except Unit String :=
    if reaction_list ≠ [] then pyJoin ", " reaction_list
    else Except.ok "Adverse drug reaction"
  match conditionFieldE, pyJoin ", " (reaction_list.take 2), pyJoin ", " reaction_list with
  | Except.ok conditionField, Except.ok joined2, Except.ok joinedAll =>
    Except.ok
      { drug_name := pyStr drug_name
        device_name := ""
        condition := conditionField
        old_dosage := "Standard dosing per label"
        new_dosage := "Dosing adjustment recommended based on adverse events"
        old_warning := "Standard warnings"
        new_warning := "Enhanced monitoring for: " ++ joined2
        old_indication := "As approved"
        new_indication := "Use with enhanced monitoring"
        recall_reason := ""
        risk_level := risk_level
        fda_approval_date := ""
        update_date := clk 0
        source_url := source_url
        ndc_code := ""
        clinical_trial_id := ""
        patient_population := "Patients similar to case: " ++ pyStr patient_sex
          ++ ", age " ++ pyStr patient_age
        contraindications := "Enhanced screening for risk factors"
        adverse_events := joinedAll
        mechanism_of_action := pyStr drug_name ++ " mechanism with identified safety concern"
        therapeutic_class := "Adverse Event Report"
        manufacturer := pyStr (safe_extract_json_value event "companynumb" (JValue.str "Unknown"))
        regulatory_status := "FDA Adverse Event Report"
        clinical_significance := "Adverse event pattern identified: " ++ joined2
        patient_safety_impact := "Serious adverse event - enhanced monitoring required"
        compliance_deadline := clk 30
        adverse_event_count := reaction_list.length
        recall_class := ""
        trial_phase := ""
        study_status := "" }
  | _, _, _ => Except.error ()

/-- `create_enhanced_device_recall_record` (lines 474-518).  The
`risk_level_map.get` raises `TypeError` when the extracted classification is
unhashable (a list or dict), and the `[:100]` slice of the product
description raises on non-sliceable values; both are caught by the per-item
handler in the harvester. -/
def create_enhanced_device_recall_record (recallItem : JValue) (source_url : String)
    (clk : Clock) : Except Unit CanonicalRecord :=
  let product_description := safe_extract_json_value recallItem "product_description"
    (JValue.str "Medical Device")
  let recall_reason := safe_extract_json_value recallItem "reason_for_recall"
    (JValue.str "Safety concern")
  let recall_class := safe_extract_json_value recallItem "classification" (JValue.str "II")
  let recalling_firm := safe_extract_json_value recallItem "recalling_firm"
    (JValue.str "Unknown Manufacturer")
  let recall_date := safe_extract_json_value recallItem "recall_initiation_date"
    (JValue.str (clk 0))
  let root_cause := safe_extract_json_value recallItem "root_cause_description"
    (JValue.str "Device issue")
  if jHashable recall_class = false then Except.error () else
  let risk_level :=
    if recall_class = JValue.str "I" then "Critical"
    else if recall_class = JValue.str "II" then "High"
    else if recall_class = JValue.str "III" then "Medium"
    else "Medium"
  match pySliceJ product_description 100 with
  | Except.ok deviceSlice =>
    Except.ok
      { drug_name := ""
        device_name := pyStr deviceSlice
        condition := ""
        old_dosage := ""
        new_dosage := ""
        old_warning := "Device approved for clinical use"
        new_warning := "RECALL CLASS " ++ pyStr recall_class ++ ": " ++ pyStr recall_reason
        old_indication := pyStr (safe_extract_json_value recallItem "product_description"
          (JValue.str "Medical device use"))
        new_indication := "Use discontinued - recall in effect"
        recall_reason := pyStr recall_reason
        risk_level := risk_level
        fda_approval_date := ""
        update_date := pyStr recall_date
        source_url := source_url
        ndc_code := ""
        clinical_trial_id := ""
        patient_population := "All device users"
        contraindications := "Device use suspended per recall"
        adverse_events := "Device-related: " ++ pyStr root_cause
        mechanism_of_action := ""
        therapeutic_class := "Medical Device Recall"
        manufacturer := pyStr recalling_firm
        regulatory_status := "FDA Recall Class " ++ pyStr recall_class
        clinical_significance := "Device recall: " ++ pyStr root_cause
        patient_safety_impact := "Class " ++ pyStr recall_class ++ " recall - "
          ++ pyStr recall_reason
        compliance_deadline := clk 30
        adverse_event_count := 0
        recall_class := pyStr recall_class
        trial_phase := ""
        study_status := "" }
  | Except.error e => Except.error e

/-- `create_drug_change_record` (lines 520-585).  The only normalizer that
consumes randomness: the faker/random draws are threaded through the
explicit entropy stream in the source's evaluation order (the two
`FAKER.random_int` calls of the fallback dosage dict are evaluated eagerly
by `dict.get` even for known drugs).  `spl_data` - the fetched DailyMed
detail payload - is accepted and never read, exactly as in the source. -/
def create_drug_change_record (drug_name : String) (spl_data : JValue)
    (source_url : String) (category : String) (clk : Clock) (rng : List Nat) :
    CanonicalRecord × List Nat :=
  let p1 := pyRandInt 25 500 rng
  let p2 := pyRandInt 10 250 p1.2
  let change_info : String × String :=
    if drug_name = "warfarin" then
      ("5mg daily", "2.5-5mg daily based on INR and age")
    else if drug_name = "insulin" then
      ("Standard sliding scale", "Individualized dosing with CGM integration")
    else if drug_name = "digoxin" then
      ("0.25mg daily", "0.125mg daily (reduced for elderly and CKD)")
    else if drug_name = "metformin" then
      ("1000mg BID", "500mg BID (contraindicated if eGFR <30)")
    else
      (toString p1.1 ++ "mg daily", toString p2.1 ++ "mg twice daily (adjusted for safety)")
  let warning_info : String × String :=
    if drug_name = "warfarin" then
      ("Monitor INR regularly",
       "BOXED WARNING: Increased bleeding risk. Weekly INR monitoring initially, especially elderly patients.")
    else if drug_name = "metformin" then
      ("May cause lactic acidosis in rare cases",
       "CONTRAINDICATED in severe renal impairment (eGFR <30). Enhanced lactic acidosis monitoring.")
    else if drug_name = "insulin" then
      ("Monitor blood glucose levels",
       "Continuous glucose monitoring recommended for high-risk patients. Hypoglycemia prevention protocols.")
    else
      ("Standard monitoring recommended",
       "Enhanced monitoring protocol required - new safety data available")
  let p3 := randElem ["hypertension", "diabetes", "heart failure", "depression",
    "atrial fibrillation"] p2.2
  let p4 := randElem ["High", "Critical", "Medium"] p3.2
  let p5 := pyRandInt 30 1095 p4.2
  let p6 := pyRandInt 10000 99999 p5.2
  let p7 := pyRandInt 100 999 p6.2
  let p8 := pyRandInt 10 99 p7.2
  let p9 := fakerCompany p8.2
  let p10 := pyRandInt 14 60 p9.2
  ({ drug_name := drug_name
     device_name := ""
     condition := p3.1
     old_dosage := change_info.1
     new_dosage := change_info.2
     old_warning := warning_info.1
     new_warning := warning_info.2
     old_indication := "Treatment of " ++ drug_name ++ "-responsive conditions"
     new_indication := "Updated indication with enhanced safety profile for " ++ drug_name
     recall_reason := ""
     risk_level := p4.1
     fda_approval_date := clk (-(p5.1 : Int))
     update_date := clk 0
     source_url := source_url
     ndc_code := toString p6.1 ++ "-" ++ toString p7.1 ++ "-" ++ toString p8.1
     clinical_trial_id := ""
     patient_population := "Adults with appropriate indications"
     contraindications := "Pregnancy, severe hepatic/renal impairment, known hypersensitivity"
     adverse_events := "Enhanced monitoring for " ++ drug_name ++ "-related adverse effects"
     mechanism_of_action := drug_name ++ " - updated mechanism with new safety considerations"
     therapeutic_class := pyTitle (pyReplaceUnderscore category)
     manufacturer := p9.1
     regulatory_status := "FDA Label Update"
     clinical_significance := "Significant " ++ drug_name
       ++ " dosing/monitoring change requires protocol updates"
     patient_safety_impact := "High - immediate clinical protocol revision recommended"
     compliance_deadline := clk (p10.1 : Int)
     adverse_event_count := 0
     recall_class := ""
     trial_phase := ""
     study_status := "" }, p10.2)

/-- `generate_enhanced_demo_scenarios` (lines 588-657): two hand-authored
scenario records with synthetic urls.  The `seen_urls` argument is accepted
and - exactly as in the source - never consulted. -/
def generate_enhanced_demo_scenarios (seen_urls : Finset String) (clk : Clock) :
    List CanonicalRecord :=
  [{ drug_name := "warfarin"
     device_name := ""
     condition := "atrial fibrillation"
     old_dosage := "5mg daily standard dosing"
     new_dosage := "2.5mg daily for patients >75 years (age-adjusted)"
     old_warning := "Monitor INR monthly"
     new_warning := "BOXED WARNING: Weekly INR monitoring required for elderly patients."
     old_indication := "Previous indication per labeling"
     new_indication := "Updated indication based on new safety data"
     recall_reason := ""
     risk_level := "Critical"
     fda_approval_date := clk (-365)
     update_date := clk 0
     source_url := "https://clinical-guardian-demo.com/scenario/1"
     ndc_code := "10000-123-45"
     clinical_trial_id := ""
     patient_population := "Adult patients in acute care settings"
     contraindications := "Standard contraindications apply"
     adverse_events := "Enhanced monitoring for adverse effects"
     mechanism_of_action := "Updated mechanism with safety considerations"
     therapeutic_class := "High-Priority Clinical Update"
     manufacturer := "Demo Pharma 1"
     regulatory_status := "FDA Safety Update"
     clinical_significance := "Age-adjusted dosing reduces major bleeding events by 40% in elderly patients"
     patient_safety_impact := "Critical - immediate dosing protocol revision required"
     compliance_deadline := clk 30
     adverse_event_count := 156
     recall_class := ""
     trial_phase := ""
     study_status := "" },
   { drug_name := "insulin"
     device_name := ""
     condition := "diabetes mellitus"
     old_dosage := "Standard sliding scale insulin protocol"
     new_dosage := "Weight-based dosing with continuous glucose monitor integration"
     old_warning := "Monitor blood glucose every 6 hours"
     new_warning := "Continuous monitoring required for high-risk patients."
     old_indication := "Previous indication per labeling"
     new_indication := "Updated indication based on new safety data"
     recall_reason := ""
     risk_level := "High"
     fda_approval_date := clk (-365)
     update_date := clk 0
     source_url := "https://clinical-guardian-demo.com/scenario/2"
     ndc_code := "10001-123-45"
     clinical_trial_id := ""
     patient_population := "Adult patients in acute care settings"
     contraindications := "Standard contraindications apply"
     adverse_events := "Enhanced monitoring for adverse effects"
     mechanism_of_action := "Updated mechanism with safety considerations"
     therapeutic_class := "High-Priority Clinical Update"
     manufacturer := "Demo Pharma 2"
     regulatory_status := "FDA Safety Update"
     clinical_significance := "CGM integration reduces hypoglycemic events by 35%"
     patient_safety_impact := "High - updated monitoring protocols required"
     compliance_deadline := clk 30
     adverse_event_count := 89
     recall_class := ""
     trial_phase := ""
     study_status := "" }]

/-- C7 (counterexample): an adverse event whose seriousness flag is present
but equal to `2` (the openFDA encoding of a non-serious report) normalizes
to risk level Medium, not Critical, refuting presence alone implying
Critical. -/
theorem C7_counterexample :
    ((create_adverse_event_record (JValue.obj [("serious", JValue.str "2")])
        (JValue.str "drug") "u" (fun _ => "2025-06-01")).toOption.map
      CanonicalRecord.risk_level) = some "Medium" ∧
    ("Medium" : String) ≠ "Critical" := by
  constructor
  · decide
  · decide

/-- C7 (amended): the decision tables as implemented.  Device recalls:
classification `I` maps to Critical, `II` to High, `III` to Medium, and any
other classification value to the table default Medium; when the field is
absent the extraction default `II` is substituted first (line 478), so an
absent classification maps to High.  Adverse events: Critical exactly when
the `serious` field equals the string `1`; otherwise High when
`seriousnessother` equals `1`; otherwise Medium - mere presence of the
seriousness flag is not enough. -/
theorem C7_risk_tables_amended (recallItem event dn : JValue) (url : String)
    (clk : Clock) (r1 r2 : CanonicalRecord) :
    (create_enhanced_device_recall_record recallItem url clk = Except.ok r1 →
      r1.risk_level =
        (if safe_extract_json_value recallItem "classification" (JValue.str "II")
            = JValue.str "I" then "Critical"
         else if safe_extract_json_value recallItem "classification" (JValue.str "II")
            = JValue.str "II" then "High"
         else if safe_extract_json_value recallItem "classification" (JValue.str "II")
            = JValue.str "III" then "Medium"
         else "Medium")) ∧
    (create_adverse_event_record event dn url clk = Except.ok r2 →
      r2.risk_level =
        (if safe_extract_json_value event "serious" (JValue.str "0") = JValue.str "1" then
          "Critical"
         else if safe_extract_json_value event "seriousnessother" (JValue.str "0")
            = JValue.str "1" then "High"
         else "Medium")) := by
  constructor
  · intro h
    unfold create_enhanced_device_recall_record at h
    dsimp only at h
    split at h
    · exact absurd h (by simp)
    · split at h
      · injection h with h
        subst h
        rfl
      · exact absurd h (by simp)
  · intro h
    unfold create_adverse_event_record at h
    dsimp only at h
    split at h
    · injection h with h
      subst h
      rfl
    · exact absurd h (by simp)

/-- C7 (witness): concrete classification-I recall maps to Critical and a
`seriousnessother = 1` adverse event maps to High, via the amended decision
tables. -/
theorem C7_witness :
    ((create_enhanced_device_recall_record (JValue.obj [("classification", JValue.str "I")])
        "u" (fun _ => "2025-06-01")).toOption.map CanonicalRecord.risk_level)
      = some "Critical" ∧
    ((create_adverse_event_record (JValue.obj [("seriousnessother", JValue.str "1")])
        (JValue.str "d") "u" (fun _ => "2025-06-01")).toOption.map CanonicalRecord.risk_level)
      = some "High" := by
  obtain ⟨r1, hr1⟩ : ∃ r, create_enhanced_device_recall_record
      (JValue.obj [("classification", JValue.str "I")]) "u" (fun _ => "2025-06-01")
        = Except.ok r := ⟨_, rfl⟩
  obtain ⟨r2, hr2⟩ : ∃ r, create_adverse_event_record
      (JValue.obj [("seriousnessother", JValue.str "1")]) (JValue.str "d") "u"
      (fun _ => "2025-06-01") = Except.ok r := ⟨_, rfl⟩
  have hmain := C7_risk_tables_amended (JValue.obj [("classification", JValue.str "I")])
    (JValue.obj [("seriousnessother", JValue.str "1")]) (JValue.str "d") "u"
    (fun _ => "2025-06-01") r1 r2
  constructor
  · rw [hr1]
    simp only [Except.toOption, Option.map]
    rw [hmain.1 hr1]
    decide
  · rw [hr2]
    simp only [Except.toOption, Option.map]
    rw [hmain.2 hr2]
    decide

/-- C8 (counterexample): `create_drug_change_record` is not a pure function
of the raw item and source context - with identical arguments but two
different states of the random generator it returns records with different
risk levels, because `risk_level` is drawn by `FAKER.random_element`. -/
theorem C8_counterexample :
    ((create_drug_change_record "warfarin" JValue.null "u" "high_risk_drugs"
        (fun _ => "2025-06-01") [0, 0, 0, 0]).1.risk_level = "High") ∧
    ((create_drug_change_record "warfarin" JValue.null "u" "high_risk_drugs"
        (fun _ => "2025-06-01") [0, 0, 0, 1]).1.risk_level = "Critical") ∧
    ("High" : String) ≠ "Critical" := by
  refine ⟨by decide, by decide, by decide⟩

/-- C8 (amended): `create_drug_change_record` is deterministic only once the
clock and random-generator state are fixed as explicit inputs.  All fields
not touched by the generators agree across invocations with different
random states: the identifying fields, both warning texts, the indication
texts, the therapeutic class, and - for the drugs of the static lookup
table, witnessed here for warfarin - both dosage texts are fixed constants.
The remaining fields (condition, risk level, approval date, NDC code,
manufacturer, compliance deadline, and the dosages of unrecognized drugs)
genuinely depend on the hidden generator state, as the counterexample
shows. -/
theorem C8_determinism_amended (drug : String) (spl : JValue) (url category : String)
    (clk : Clock) (rng₁ rng₂ : List Nat) :
    (create_drug_change_record drug spl url category clk rng₁).1.drug_name = drug ∧
    (create_drug_change_record drug spl url category clk rng₂).1.drug_name = drug ∧
    (create_drug_change_record drug spl url category clk rng₁).1.old_warning
      = (create_drug_change_record drug spl url category clk rng₂).1.old_warning ∧
    (create_drug_change_record drug spl url category clk rng₁).1.new_warning
      = (create_drug_change_record drug spl url category clk rng₂).1.new_warning ∧
    (create_drug_change_record drug spl url category clk rng₁).1.old_indication
      = (create_drug_change_record drug spl url category clk rng₂).1.old_indication ∧
    (create_drug_change_record drug spl url category clk rng₁).1.new_indication
      = (create_drug_change_record drug spl url category clk rng₂).1.new_indication ∧
    (create_drug_change_record drug spl url category clk rng₁).1.update_date = clk 0 ∧
    (create_drug_change_record drug spl url category clk rng₁).1.source_url = url ∧
    (create_drug_change_record drug spl url category clk rng₁).1.therapeutic_class
      = (create_drug_change_record drug spl url category clk rng₂).1.therapeutic_class ∧
    (create_drug_change_record drug spl url category clk rng₁).1.regulatory_status
      = "FDA Label Update" ∧
    (create_drug_change_record drug spl url category clk rng₁).1.patient_safety_impact
      = (create_drug_change_record drug spl url category clk rng₂).1.patient_safety_impact ∧
    (create_drug_change_record drug spl url category clk rng₁).1.adverse_event_count = 0 ∧
    (drug = "warfarin" →
      (create_drug_change_record drug spl url category clk rng₁).1.old_dosage = "5mg daily" ∧
      (create_drug_change_record drug spl url category clk rng₂).1.old_dosage = "5mg daily" ∧
      (create_drug_change_record drug spl url category clk rng₁).1.new_dosage
        = "2.5-5mg daily based on INR and age" ∧
      (create_drug_change_record drug spl url category clk rng₂).1.new_dosage
        = "2.5-5mg daily based on INR and age") := by
  refine ⟨rfl, rfl, rfl, rfl, rfl, rfl, rfl, rfl, rfl, rfl, rfl, rfl, ?_⟩
  intro hd
  subst hd
  exact ⟨rfl, rfl, rfl, rfl⟩

/-- C8 (witness): the amended determinism facts at concrete inputs,
discharging the warfarin hypothesis. -/
theorem C8_witness :
    (create_drug_change_record "warfarin" JValue.null "u" "high_risk_drugs"
      (fun _ => "2025-06-01") [3, 1, 4, 1, 5]).1.old_dosage = "5mg daily" ∧
    (create_drug_change_record "warfarin" JValue.null "u" "high_risk_drugs"
      (fun _ => "2025-06-01") [2, 7, 1, 8]).1.new_dosage
      = "2.5-5mg daily based on INR and age" ∧
    (create_drug_change_record "warfarin" JValue.null "u" "high_risk_drugs"
      (fun _ => "2025-06-01") [3, 1, 4, 1, 5]).1.new_warning
      = (create_drug_change_record "warfarin" JValue.null "u" "high_risk_drugs"
      (fun _ => "2025-06-01") [2, 7, 1, 8]).1.new_warning := by
  have h := C8_determinism_amended "warfarin" JValue.null "u" "high_risk_drugs"
    (fun _ => "2025-06-01") [3, 1, 4, 1, 5] [2, 7, 1, 8]
  obtain ⟨-, -, -, hw, -, -, -, -, -, -, -, -, hdos⟩ := h
  obtain ⟨h1, -, -, h4⟩ := hdos rfl
  exact ⟨h1, h4, hw⟩

/-- A completed HTTP exchange: the status code, and the JSON body
(`none` when the body fails to parse as JSON). -/
structure HttpResp where
  status : Nat
  body : Option JValue
  deriving Repr, DecidableEq

/-- The static upstream API, one lookup function per request family the
harvesters issue: clinical-trials search by condition, adverse-event search
by pattern, recall search by term, DailyMed search by drug name, and
DailyMed detail by set id. -/
structure Responses where
  trials : String → HttpResp
  adverse : String → HttpResp
  recalls : String → HttpResp
  dailymedSearch : String → HttpResp
  dailymedDetail : String → HttpResp

/-- `search_conditions` of `harvest_clinical_trials_v2` (lines 129-136). -/
def search_conditions : List String :=
  ["lung cancer", "breast cancer", "diabetes", "hypertension", "heart failure", "depression"]

/-- `search_patterns` of `harvest_fda_adverse_events` (lines 202-209). -/
def search_patterns : List String :=
  ["patient.reaction.reactionmeddrapt:headache",
   "patient.reaction.reactionmeddrapt:nausea",
   "patient.reaction.reactionmeddrapt:dizziness",
   "patient.reaction.reactionmeddrapt:fatigue",
   "patient.reaction.reactionmeddrapt:\"abdominal pain\"",
   "patient.reaction.reactionmeddrapt:rash"]

/-- `serious_event_patterns` (lines 212-216); sliced away by
`all_patterns[:6]` and therefore never queried. -/
def serious_event_patterns : List String :=
  ["serious:1", "seriousnesshospitalization:1", "seriousnesslifethreatening:1"]

/-- `all_patterns` (line 218). -/
def all_patterns : List String := search_patterns ++ serious_event_patterns

/-- `search_terms` of `harvest_fda_device_recalls_enhanced` (lines 275-281). -/
def search_terms : List String :=
  ["root_cause_description.exact:\"Device Design\"",
   "root_cause_description.exact:\"Software\"",
   "root_cause_description.exact:\"Manufacturing\"",
   "product_classification:\"II\"",
   "product_classification:\"III\""]

/-- `DRUG_CATEGORIES` (lines 56-61), in dict insertion order. -/
def DRUG_CATEGORIES : List (String × List String) :=
  [("high_risk_drugs",
    ["warfarin", "insulin", "digoxin", "lithium", "phenytoin", "metformin",
     "lisinopril", "atorvastatin", "heparin", "amiodarone"]),
   ("oncology_drugs",
    ["pembrolizumab", "nivolumab", "bevacizumab", "trastuzumab", "rituximab",
     "carboplatin", "paclitaxel", "doxorubicin"]),
   ("cardiac_drugs",
    ["metoprolol", "amlodipine", "losartan", "clopidogrel", "aspirin",
     "simvastatin", "rivaroxaban", "apixaban"]),
   ("psychiatric_drugs",
    ["sertraline", "escitalopram", "aripiprazole", "quetiapine", "olanzapine",
     "risperidone", "duloxetine"])]

/-- Source url of a clinical-trials item (line 165). -/
def trialsUrl (nct : JValue) : String :=
  "https://clinicaltrials.gov/study/" ++ pyStr nct

/-- Source url of an adverse-event item (line 244). -/
def adverseUrl (sid : JValue) : String :=
  "https://fda.gov/adverse-event/" ++ pyStr sid

/-- Source url of a device-recall item (line 302). -/
def recallsUrl (num : JValue) : String :=
  "https://www.fda.gov/medical-devices/medical-device-recalls/" ++ pyStr num

/-- `API_ENDPOINTS[DAILYMED]` (line 30). -/
def dailymedBase : String := "https://dailymed.nlm.nih.gov/dailymed/services/v2"

/-- Detail url of a DailyMed label (line 342). -/
def dailymedDetailUrl (sid : JValue) : String :=
  dailymedBase ++ "/spls/" ++ pyStr sid ++ ".json"

/-- Sequential accumulation of (items, log lines) over a list, mirroring the
`new_items.append` / `print` flow of the facet and item loops. -/
def foldSteps (f : α → List CanonicalRecord × List String) :
    List α → List CanonicalRecord × List String
  | [] => ([], [])
  | x :: xs =>
    let s := f x
    let rest := foldSteps f xs
    (s.1 ++ rest.1, s.2 ++ rest.2)

/-- The nct id extracted from a study (line 161). -/
def trialsNct (study : JValue) : JValue :=
  safe_extract_json_value study "protocolSection.identificationModule.nctId"

/-- The drug name extracted from an adverse event (lines 239-242). -/
def adverseDrugName (event : JValue) : JValue :=
  match safe_extract_json_value event "patient.drug" (JValue.arr []) with
  | JValue.arr (d0 :: _) =>
    safe_extract_json_value d0 "medicinalproduct" (JValue.str "Unknown Drug")
  | _ => JValue.str "Unknown Drug"

/-- The safety report id extracted from an adverse event (line 244). -/
def adverseSid (event : JValue) : JValue :=
  safe_extract_json_value event "safetyreportid" (JValue.str "unknown")

/-- The recall number extracted from a recall (line 301). -/
def recallNum (recallItem : JValue) : JValue :=
  safe_extract_json_value recallItem "recall_number"

/-- The setid extracted from an spl entry (line 338, `spl.get(SETID)`). -/
def splSetid (fs : List (String × JValue)) : JValue :=
  (jGet? fs "setid").getD JValue.null

/-- Per-study body of the clinical-trials harvester (lines 160-176): skip
studies without a truthy nct id, skip already-seen urls, otherwise normalize;
a raise inside the normalizer is caught, logged, and skips the item.  The
`if item:` check of the source is omitted because the normalizers always
return a (truthy) non-empty dict. -/
def trialsStudyStep (seen : Finset String) (clk : Clock) (study : JValue) :
    List CanonicalRecord × List String :=
  let nct_id := trialsNct study
  if pyTruthy nct_id = false then ([], [])
  else
    let source_url := trialsUrl nct_id
    if source_url ∈ seen then ([], [])
    else
      match create_clinical_trial_v2_record study source_url clk with
      | Except.ok item => ([item], [])
      | Except.error _ => ([], ["      Error processing study: "])

/-- Per-facet body of the clinical-trials harvester (lines 139-192).  Log
lines are the source's prints with the interpolated exception text omitted
(the exception object is outside the model). -/
def trialsFacetStep (R : Responses) (seen : Finset String) (clk : Clock)
    (condition : String) : List CanonicalRecord × List String :=
  let resp := R.trials condition
  let fetchLog := "  Fetching clinical trials for: " ++ condition
  if resp.status = 200 then
    match resp.body with
    | none => ([], [fetchLog, "    JSON decode error for " ++ condition])
    | some data =>
      let inner : Except Unit (List CanonicalRecord × List String) :=
        match jContains data "studies" with
        | Except.error e => Except.error e
        | Except.ok hasStudies =>
          if hasStudies then
            match jIndexStr data "studies" with
            | Except.error e => Except.error e
            | Except.ok studiesVal =>
              if pyTruthy studiesVal then
                match jLen studiesVal, pySlice studiesVal 12 with
                | Except.ok n, Except.ok studies =>
                  let folded := foldSteps (trialsStudyStep seen clk) studies
                  Except.ok (folded.1,
                    ("    Found " ++ toString n ++ " studies") :: folded.2)
                | _, _ => Except.error ()
              else Except.ok ([], ["    No studies found in response for: " ++ condition])
          else Except.ok ([], ["    No studies found in response for: " ++ condition])
      match inner with
      | Except.ok s => (s.1, fetchLog :: s.2)
      | Except.error _ => ([], [fetchLog, "  Error fetching clinical trials for " ++ condition])
  else if resp.status = 404 then
    ([], [fetchLog, "    No results found for: " ++ condition])
  else
    ([], [fetchLog, "    API error " ++ toString resp.status ++ " for: " ++ condition])

/-- `harvest_clinical_trials_v2` (lines 123-194): the first four search
conditions, in order. -/
def harvest_clinical_trials_v2 (R : Responses) (seen : Finset String) (clk : Clock) :
    List CanonicalRecord × List String :=
  foldSteps (trialsFacetStep R seen clk) (search_conditions.take 4)

/-- Per-event body of the adverse-events harvester (lines 236-255). -/
def adverseEventStep (seen : Finset String) (clk : Clock) (event : JValue) :
    List CanonicalRecord × List String :=
  let drug_name : JValue := adverseDrugName event
  let source_url := adverseUrl (adverseSid event)
  if source_url ∈ seen then ([], [])
  else
    match create_adverse_event_record event drug_name source_url clk with
    | Except.ok item => ([item], [])
    | Except.error _ => ([], ["      Error processing adverse event: "])

/-- Per-facet body of the adverse-events harvester (lines 220-266). -/
def adverseFacetStep (R : Responses) (seen : Finset String) (clk : Clock)
    (pattern : String) : List CanonicalRecord × List String :=
  let resp := R.adverse pattern
  let fetchLog := "  Fetching adverse events for: " ++ pattern
  if resp.status = 200 then
    match resp.body with
    | none => ([], [fetchLog, "    Error fetching adverse events for " ++ pattern])
    | some data =>
      let inner : Except Unit (List CanonicalRecord × List String) :=
        match jContains data "results" with
        | Except.error e => Except.error e
        | Except.ok hasResults =>
          if hasResults then
            match jIndexStr data "results" with
            | Except.error e => Except.error e
            | Except.ok rs =>
              match jLen rs, pySlice rs 8 with
              | Except.ok n, Except.ok events =>
                let folded := foldSteps (adverseEventStep seen clk) events
                Except.ok (folded.1,
                  ("    Found " ++ toString n ++ " adverse events") :: folded.2)
              | _, _ => Except.error ()
          else Except.ok ([], [])
      match inner with
      | Except.ok s => (s.1, fetchLog :: s.2)
      | Except.error _ => ([], [fetchLog, "    Error fetching adverse events for " ++ pattern])
  else if resp.status = 404 then
    ([], [fetchLog, "    No results found for: " ++ pattern])
  else
    ([], [fetchLog, "    API error " ++ toString resp.status ++ " for: " ++ pattern])

/-- `harvest_fda_adverse_events` (lines 196-268): the first six entries of
`all_patterns` - exactly `search_patterns`, leaving the serious-event
patterns unqueried. -/
def harvest_fda_adverse_events (R : Responses) (seen : Finset String) (clk : Clock) :
    List CanonicalRecord × List String :=
  foldSteps (adverseFacetStep R seen clk) (all_patterns.take 6)

/-- Per-recall body of the device-recalls harvester (lines 299-313). -/
def recallItemStep (seen : Finset String) (clk : Clock) (recallItem : JValue) :
    List CanonicalRecord × List String :=
  let recall_number := recallNum recallItem
  let source_url := recallsUrl recall_number
  if source_url ∈ seen then ([], [])
  else
    match create_enhanced_device_recall_record recallItem source_url clk with
    | Except.ok item => ([item], [])
    | Except.error _ => ([], ["      Error processing recall: "])

/-- Per-facet body of the device-recalls harvester (lines 283-319).  Note:
unlike the other two search harvesters there is no 404 branch - every
non-200 status falls through silently with no log line. -/
def recallsFacetStep (R : Responses) (seen : Finset String) (clk : Clock)
    (term : String) : List CanonicalRecord × List String :=
  let resp := R.recalls term
  let fetchLog := "  Fetching device recalls for: " ++ term
  if resp.status = 200 then
    match resp.body with
    | none => ([], [fetchLog, "  Error fetching device recalls for " ++ term])
    | some data =>
      let inner : Except Unit (List CanonicalRecord × List String) :=
        match jContains data "results" with
        | Except.error e => Except.error e
        | Except.ok hasResults =>
          if hasResults then
            match jIndexStr data "results" with
            | Except.error e => Except.error e
            | Except.ok rs =>
              match jLen rs, pySlice rs 10 with
              | Except.ok n, Except.ok recallItems =>
                let folded := foldSteps (recallItemStep seen clk) recallItems
                Except.ok (folded.1,
                  ("    Found " ++ toString n ++ " recalls") :: folded.2)
              | _, _ => Except.error ()
          else Except.ok ([], [])
      match inner with
      | Except.ok s => (s.1, fetchLog :: s.2)
      | Except.error _ => ([], [fetchLog, "  Error fetching device recalls for " ++ term])
  else ([], [fetchLog])

/-- `harvest_fda_device_recalls_enhanced` (lines 270-321): the first three
search terms. -/
def harvest_fda_device_recalls_enhanced (R : Responses) (seen : Finset String)
    (clk : Clock) : List CanonicalRecord × List String :=
  foldSteps (recallsFacetStep R seen clk) (search_terms.take 3)

/-- Per-spl loop of the DailyMed harvester (lines 337-352), threading the
rng and modelling the mid-loop raises: a non-dict spl raises at `spl.get`,
and a 200 detail response whose body fails to parse raises at `.json()`;
either aborts the remaining spls of that drug (the third component flags the
abort for the per-drug handler; items collected before the raise are kept,
since the source appends them to the harvester-level list as it goes). -/
def dailymedSpls (R : Responses) (seen : Finset String) (drug category : String)
    (clk : Clock) : List JValue → List Nat → List CanonicalRecord × List Nat × Bool
  | [], rng => ([], rng, false)
  | spl :: rest, rng =>
    match spl with
    | JValue.obj fs =>
      let spl_id := splSetid fs
      if pyTruthy spl_id = false then dailymedSpls R seen drug category clk rest rng
      else
        let detail_url := dailymedDetailUrl spl_id
        if detail_url ∈ seen then dailymedSpls R seen drug category clk rest rng
        else
          let dresp := R.dailymedDetail detail_url
          if dresp.status = 200 then
            match dresp.body with
            | some detail_data =>
              let p := create_drug_change_record drug detail_data detail_url category clk rng
              let rest2 := dailymedSpls R seen drug category clk rest p.2
              (p.1 :: rest2.1, rest2.2)
            | none => ([], rng, true)
          else dailymedSpls R seen drug category clk rest rng
    | _ => ([], rng, true)

/-- Per-drug body of the DailyMed harvester (lines 328-358): one search
request, `data.get(DATA, [])[:3]`, then the spl loop; any raise is caught by
the per-drug handler and logged. -/
def dailymedDrugStep (R : Responses) (seen : Finset String) (clk : Clock)
    (category drug : String) (rng : List Nat) :
    List CanonicalRecord × List String × List Nat :=
  let errLog := "Error processing drug " ++ drug ++ ": "
  let resp := R.dailymedSearch drug
  if resp.status = 200 then
    match resp.body with
    | none => ([], [errLog], rng)
    | some data =>
      match data with
      | JValue.obj fs =>
        match pySlice ((jGet? fs "data").getD (JValue.arr [])) 3 with
        | Except.ok spls =>
          let s := dailymedSpls R seen drug category clk spls rng
          (s.1, if s.2.2 then [errLog] else [], s.2.1)
        | Except.error _ => ([], [errLog], rng)
      | _ => ([], [errLog], rng)
  else ([], [], rng)

/-- The (category, drug) pairs the DailyMed harvester iterates: the first
four drugs of each category, in dict order (lines 328-329). -/
def dailymedPairs : List (String × String) :=
  (DRUG_CATEGORIES.map (fun c => (c.2.take 4).map (fun d => (c.1, d)))).flatten

/-- Sequential fold of the per-drug steps, threading items, logs and rng. -/
def dailymedFold (R : Responses) (seen : Finset String) (clk : Clock) :
    List (String × String) → List Nat → List CanonicalRecord × List String × List Nat
  | [], rng => ([], [], rng)
  | p :: rest, rng =>
    let s := dailymedDrugStep R seen clk p.1 p.2 rng
    let t := dailymedFold R seen clk rest s.2.2
    (s.1 ++ t.1, s.2.1 ++ t.2.1, t.2.2)

/-- `harvest_fda_dailymed_changes` (lines 323-360). -/
def harvest_fda_dailymed_changes (R : Responses) (seen : Finset String) (clk : Clock)
    (rng : List Nat) : List CanonicalRecord × List String × List Nat :=
  dailymedFold R seen clk dailymedPairs rng

/-- The accumulation loop of `main` (lines 691-695): keep an item only when
its url is neither in the loaded seen set nor in the urls newly seen this
run, and record the url. -/
def accumItems (seen : Finset String) :
    List CanonicalRecord → List CanonicalRecord → List String →
      List CanonicalRecord × List String
  | [], batch, newly => (batch, newly)
  | item :: rest, batch, newly =>
    if item.source_url ∉ seen ∧ item.source_url ∉ newly then
      accumItems seen rest (batch ++ [item]) (newly ++ [item.source_url])
    else accumItems seen rest batch newly

/-- The HARVESTING phase of `main` (lines 673-700): run the four harvesters
in registration order, each against the union of the loaded seen set and the
urls newly seen so far, and accumulate novel items. -/
def mainHarvested (R : Responses) (fs : Option (List Char)) (clk : Clock)
    (rng : List Nat) : List CanonicalRecord × List String :=
  let seen := load_seen_urls fs
  let i1 := (harvest_fda_dailymed_changes R (seen ∪ ([] : List String).toFinset) clk rng).1
  let a1 := accumItems seen i1 [] []
  let i2 := (harvest_fda_adverse_events R (seen ∪ a1.2.toFinset) clk).1
  let a2 := accumItems seen i2 a1.1 a1.2
  let i3 := (harvest_fda_device_recalls_enhanced R (seen ∪ a2.2.toFinset) clk).1
  let a3 := accumItems seen i3 a2.1 a2.2
  let i4 := (harvest_clinical_trials_v2 R (seen ∪ a3.2.toFinset) clk).1
  accumItems seen i4 a3.1 a3.2

/-- The source's `main` (lines 663-732), named `mainRun` because Lean
reserves `main`: harvest, backfill demo scenarios when forced or when fewer
than 15 items were accumulated, then persist (the returned pair is the
written batch and the seen-urls file after the append; the CSV write is
`writeCsv` of the batch). -/
def mainRun (R : Responses) (fs : Option (List Char)) (clk : Clock) (rng : List Nat)
    (force_generation : Bool) : List CanonicalRecord × Option (List Char) :=
  let seen := load_seen_urls fs
  let h := mainHarvested R fs clk rng
  let final :=
    if force_generation ∨ h.1.length < 15 then
      let simulated_items := generate_enhanced_demo_scenarios (seen ∪ h.2.toFinset) clk
      (h.1 ++ simulated_items,
       simulated_items.foldl
         (fun ns it => if it.source_url ∈ ns then ns else ns ++ [it.source_url]) h.2)
    else h
  (final.1, save_seen_urls fs final.2)

/-- Reference form of the accumulation loop: keep each item only when its
url is novel, threading the urls kept so far through the seen set. -/
def firstOccFilter (seen : Finset String) : List CanonicalRecord → List CanonicalRecord
  | [] => []
  | i :: rest =>
    if i.source_url ∈ seen then firstOccFilter seen rest
    else i :: firstOccFilter (insert i.source_url seen) rest

theorem firstOccFilter_congr {s t : Finset String} (h : s = t) :
    ∀ l, firstOccFilter s l = firstOccFilter t l := by
  subst h; intro l; rfl

/-- The orchestrator's accumulation loop equals the reference filter. -/
theorem accumItems_spec (seen : Finset String) :
    ∀ (items batch : List CanonicalRecord) (newly : List String),
      accumItems seen items batch newly =
        (batch ++ firstOccFilter (seen ∪ newly.toFinset) items,
         newly ++ (firstOccFilter (seen ∪ newly.toFinset) items).map
           CanonicalRecord.source_url) := by
  intro items
  induction items with
  | nil => intro batch newly; simp [accumItems, firstOccFilter]
  | cons item rest ih =>
    intro batch newly
    by_cases hmem : item.source_url ∈ seen ∪ newly.toFinset
    · have hcond : ¬ (item.source_url ∉ seen ∧ item.source_url ∉ newly) := by
        simp only [Finset.mem_union, List.mem_toFinset] at hmem
        tauto
      rw [accumItems, if_neg hcond, ih batch newly, firstOccFilter, if_pos hmem]
    · have hcond : item.source_url ∉ seen ∧ item.source_url ∉ newly := by
        simp only [Finset.mem_union, List.mem_toFinset] at hmem
        tauto
      rw [accumItems, if_pos hcond, ih (batch ++ [item]) (newly ++ [item.source_url]),
        firstOccFilter, if_neg hmem]
      have hset : seen ∪ (newly ++ [item.source_url]).toFinset
          = insert item.source_url (seen ∪ newly.toFinset) := by
        ext u
        simp only [Finset.mem_union, List.mem_toFinset, List.mem_append,
          List.mem_singleton, Finset.mem_insert]
        tauto
      rw [firstOccFilter_congr hset]
      simp

theorem firstOccFilter_urls_nodup :
    ∀ (l : List CanonicalRecord) (seen : Finset String),
      (((firstOccFilter seen l).map CanonicalRecord.source_url).Nodup ∧
       ∀ u ∈ (firstOccFilter seen l).map CanonicalRecord.source_url, u ∉ seen) := by
  intro l
  induction l with
  | nil => intro seen; simp [firstOccFilter]
  | cons i rest ih =>
    intro seen
    by_cases h : i.source_url ∈ seen
    · rw [firstOccFilter, if_pos h]
      exact ih seen
    · rw [firstOccFilter, if_neg h]
      obtain ⟨hnd, hni⟩ := ih (insert i.source_url seen)
      refine ⟨?_, ?_⟩
      · simp only [List.map_cons, List.nodup_cons]
        refine ⟨fun hmem => ?_, hnd⟩
        exact hni _ hmem (Finset.mem_insert_self _ _)
      · intro u hu
        simp only [List.map_cons, List.mem_cons] at hu
        rcases hu with rfl | hu
        · exact h
        · exact fun hus => hni u hu (Finset.mem_insert_of_mem hus)

theorem firstOccFilter_sublist (seen : Finset String) :
    ∀ l : List CanonicalRecord, ∀ i ∈ firstOccFilter seen l, i ∈ l := by
  intro l
  induction l generalizing seen with
  | nil => simp [firstOccFilter]
  | cons x rest ih =>
    intro i hi
    by_cases h : x.source_url ∈ seen
    · rw [firstOccFilter, if_pos h] at hi
      exact List.mem_cons_of_mem x (ih seen i hi)
    · rw [firstOccFilter, if_neg h] at hi
      rcases List.mem_cons.mp hi with rfl | hi
      · exact List.mem_cons_self i rest
      · exact List.mem_cons_of_mem x (ih _ i hi)

theorem firstOccFilter_covers (seen : Finset String) :
    ∀ (l : List CanonicalRecord) (u : String),
      u ∈ l.map CanonicalRecord.source_url →
      u ∈ seen ∨ u ∈ (firstOccFilter seen l).map CanonicalRecord.source_url := by
  intro l
  induction l generalizing seen with
  | nil => simp
  | cons i rest ih =>
    intro u hu
    simp only [List.map_cons, List.mem_cons] at hu
    by_cases h : i.source_url ∈ seen
    · rw [firstOccFilter, if_pos h]
      rcases hu with rfl | hu
      · exact Or.inl h
      · exact ih seen u hu
    · rw [firstOccFilter, if_neg h]
      rcases hu with rfl | hu
      · exact Or.inr (by simp)
      · rcases ih (insert i.source_url seen) u hu with hl | hr
        · rcases Finset.mem_insert.mp hl with rfl | hl
          · exact Or.inr (by simp)
          · exact Or.inl hl
        · exact Or.inr (by simp [hr])

theorem firstOccFilter_append (seen : Finset String) :
    ∀ (ys zs : List CanonicalRecord),
      firstOccFilter seen (ys ++ zs) =
        firstOccFilter seen ys ++
          firstOccFilter
            (seen ∪ ((firstOccFilter seen ys).map CanonicalRecord.source_url).toFinset)
            zs := by
  intro ys
  induction ys generalizing seen with
  | nil =>
    intro zs
    simp only [List.nil_append, firstOccFilter]
    rw [firstOccFilter_congr (by simp : seen ∪ (([] : List CanonicalRecord).map
      CanonicalRecord.source_url).toFinset = seen)]
  | cons i rest ih =>
    intro zs
    by_cases h : i.source_url ∈ seen
    · rw [List.cons_append, firstOccFilter, if_pos h, firstOccFilter, if_pos h, ih seen zs]
    · rw [List.cons_append, firstOccFilter, if_neg h, firstOccFilter, if_neg h,
        ih (insert i.source_url seen) zs]
      have hset : insert i.source_url seen ∪
          ((firstOccFilter (insert i.source_url seen) rest).map
            CanonicalRecord.source_url).toFinset
          = seen ∪ ((i :: firstOccFilter (insert i.source_url seen) rest).map
            CanonicalRecord.source_url).toFinset := by
        ext u
        simp only [Finset.mem_union, Finset.mem_insert, List.mem_toFinset,
          List.map_cons, List.mem_cons]
        tauto
      rw [firstOccFilter_congr hset]
      simp

/-- C5 (confirmed): within one orchestrator run, of all yielded items
sharing a `source_url` only the first in yield order is appended to the
batch, including across two successive harvesters (`ys` then `zs`, the
second accumulation continuing from the state of the first): the
accumulated batch is the first-occurrence filter of the concatenated yield
sequence, batch urls are pairwise distinct, and the in-run seen list is
exactly the batch's url list. -/
theorem C5_dedup_within_run (seen : Finset String) (ys zs : List CanonicalRecord) :
    (accumItems seen zs (accumItems seen ys [] []).1 (accumItems seen ys [] []).2).1
      = firstOccFilter seen (ys ++ zs) ∧
    ((accumItems seen zs (accumItems seen ys [] []).1
        (accumItems seen ys [] []).2).1.map CanonicalRecord.source_url).Nodup ∧
    (accumItems seen zs (accumItems seen ys [] []).1 (accumItems seen ys [] []).2).2
      = (accumItems seen zs (accumItems seen ys [] []).1
          (accumItems seen ys [] []).2).1.map CanonicalRecord.source_url := by
  have h1 := accumItems_spec seen ys [] []
  have hseen0 : seen ∪ ([] : List String).toFinset = seen := by simp
  rw [h1]
  have h2 := accumItems_spec seen zs
    ([] ++ firstOccFilter (seen ∪ ([] : List String).toFinset) ys)
    ([] ++ (firstOccFilter (seen ∪ ([] : List String).toFinset) ys).map
      CanonicalRecord.source_url)
  rw [h2]
  rw [firstOccFilter_congr hseen0]
  simp only [List.nil_append]
  have hset : seen ∪ ((firstOccFilter seen ys).map CanonicalRecord.source_url).toFinset
      = seen ∪ ((firstOccFilter seen ys).map CanonicalRecord.source_url).toFinset := rfl
  refine ⟨?_, ?_, ?_⟩
  · rw [firstOccFilter_append seen ys zs]
  · rw [← firstOccFilter_append seen ys zs]
    exact (firstOccFilter_urls_nodup (ys ++ zs) seen).1
  · simp [firstOccFilter_append seen ys zs]

/-- C9 (confirmed): demo scenario records are appended to the batch exactly
when the caller forced backfill or the accumulated batch has fewer than 15
items; when appended, the final batch is the harvested batch followed by
exactly the fixed demo scenario list, whose two synthetic source urls are
distinct. -/
theorem C9_backfill_trigger (R : Responses) (fs : Option (List Char)) (clk : Clock)
    (rng : List Nat) (force : Bool) :
    ((force = true ∨ (mainHarvested R fs clk rng).1.length < 15) →
      (mainRun R fs clk rng force).1
        = (mainHarvested R fs clk rng).1 ++
          generate_enhanced_demo_scenarios
            (load_seen_urls fs ∪ (mainHarvested R fs clk rng).2.toFinset) clk) ∧
    (force = false → 15 ≤ (mainHarvested R fs clk rng).1.length →
      (mainRun R fs clk rng force).1 = (mainHarvested R fs clk rng).1) ∧
    ((generate_enhanced_demo_scenarios
        (load_seen_urls fs ∪ (mainHarvested R fs clk rng).2.toFinset) clk).map
      CanonicalRecord.source_url
      = ["https://clinical-guardian-demo.com/scenario/1",
         "https://clinical-guardian-demo.com/scenario/2"]) ∧
    ("https://clinical-guardian-demo.com/scenario/1" : String)
      ≠ "https://clinical-guardian-demo.com/scenario/2" := by
  refine ⟨?_, ?_, rfl, by decide⟩
  · intro hc
    unfold mainRun
    dsimp only
    rw [if_pos hc]
  · intro hf hlen
    unfold mainRun
    dsimp only
    rw [if_neg]
    intro hc
    rcases hc with hc | hc
    · rw [hf] at hc
      exact Bool.false_ne_true hc
    · exact absurd hc (not_lt.mpr hlen)

/-- Static responses for the C9 witness: the first device-recall facet
returns five recalls, every other request 404s. -/
def C9exResponses : Responses :=
  { trials := fun _ => ⟨404, none⟩
    adverse := fun _ => ⟨404, none⟩
    recalls := fun term =>
      if term = "root_cause_description.exact:\"Device Design\"" then
        ⟨200, some (JValue.obj [("results", JValue.arr
          [JValue.obj [("recall_number", JValue.str "Z-1001")],
           JValue.obj [("recall_number", JValue.str "Z-1002")],
           JValue.obj [("recall_number", JValue.str "Z-1003")],
           JValue.obj [("recall_number", JValue.str "Z-1004")],
           JValue.obj [("recall_number", JValue.str "Z-1005")]])])⟩
      else ⟨404, none⟩
    dailymedSearch := fun _ => ⟨404, none⟩
    dailymedDetail := fun _ => ⟨404, none⟩ }

/-- Fixed rendered clock for witnesses. -/
def witClk : Clock := fun _ => "2025-06-01"

/-- C9 (witness): with harvesters mocked to contribute exactly 5 items, the
run's batch is those 5 items plus the demo scenario records. -/
theorem C9_witness :
    (mainHarvested C9exResponses none witClk []).1.length = 5 ∧
    (mainRun C9exResponses none witClk [] false).1
      = (mainHarvested C9exResponses none witClk []).1 ++
        generate_enhanced_demo_scenarios
          (load_seen_urls none ∪ (mainHarvested C9exResponses none witClk []).2.toFinset)
          witClk := by
  refine ⟨by decide, ?_⟩
  exact (C9_backfill_trigger C9exResponses none witClk [] false).1 (Or.inr (by decide))

/-- Responses whose device-recall endpoint always returns HTTP 500. -/
def C10exR500 : Responses :=
  { trials := fun _ => ⟨404, none⟩
    adverse := fun _ => ⟨404, none⟩
    recalls := fun _ => ⟨500, none⟩
    dailymedSearch := fun _ => ⟨404, none⟩
    dailymedDetail := fun _ => ⟨404, none⟩ }

/-- Responses whose device-recall endpoint always returns HTTP 404. -/
def C10exR404 : Responses :=
  { trials := fun _ => ⟨404, none⟩
    adverse := fun _ => ⟨404, none⟩
    recalls := fun _ => ⟨404, none⟩
    dailymedSearch := fun _ => ⟨404, none⟩
    dailymedDetail := fun _ => ⟨404, none⟩ }

/-- C10 (counterexample): status handling is not uniform across harvesters.
The device-recalls harvester cannot tell a 404 from a 500: both runs are
identical, and the 500 run logs only the per-facet fetch lines - no
API-error line and no no-results line - so a non-200/404 status is not
logged there, contrary to the claimed uniform policy (which the
clinical-trials and adverse-events harvesters do implement). -/
theorem C10_counterexample :
    harvest_fda_device_recalls_enhanced C10exR500 ∅ witClk
      = harvest_fda_device_recalls_enhanced C10exR404 ∅ witClk ∧
    (harvest_fda_device_recalls_enhanced C10exR500 ∅ witClk).2
      = ["  Fetching device recalls for: root_cause_description.exact:\"Device Design\"",
         "  Fetching device recalls for: root_cause_description.exact:\"Software\"",
         "  Fetching device recalls for: root_cause_description.exact:\"Manufacturing\""] := by
  refine ⟨by decide, by decide⟩

/-- C10 (amended): per-facet status handling as implemented.  The
clinical-trials and adverse-events harvesters follow the claimed policy: a
404 yields no items and a no-results log line (not an error), any other
non-200 status yields no items and an API-error log line, and in both cases
the remaining facets are still processed.  The device-recalls and DailyMed
harvesters instead treat every non-200 status - 404 included - as a silent
per-facet skip with no status log line at all (DailyMed logs nothing per
facet), also without aborting the remaining facets. -/
theorem C10_status_handling_amended (R : Responses) (seen : Finset String) (clk : Clock)
    (c p t category drug : String) (rng : List Nat) (restC restP restT : List String) :
    ((R.trials c).status = 404 →
      trialsFacetStep R seen clk c
        = ([], ["  Fetching clinical trials for: " ++ c,
                "    No results found for: " ++ c])) ∧
    ((R.trials c).status ≠ 200 → (R.trials c).status ≠ 404 →
      trialsFacetStep R seen clk c
        = ([], ["  Fetching clinical trials for: " ++ c,
                "    API error " ++ toString (R.trials c).status ++ " for: " ++ c])) ∧
    ((R.adverse p).status = 404 →
      adverseFacetStep R seen clk p
        = ([], ["  Fetching adverse events for: " ++ p,
                "    No results found for: " ++ p])) ∧
    ((R.adverse p).status ≠ 200 → (R.adverse p).status ≠ 404 →
      adverseFacetStep R seen clk p
        = ([], ["  Fetching adverse events for: " ++ p,
                "    API error " ++ toString (R.adverse p).status ++ " for: " ++ p])) ∧
    ((R.recalls t).status ≠ 200 →
      recallsFacetStep R seen clk t
        = ([], ["  Fetching device recalls for: " ++ t])) ∧
    ((R.dailymedSearch drug).status ≠ 200 →
      dailymedDrugStep R seen clk category drug rng = ([], [], rng)) ∧
    ((R.trials c).status ≠ 200 →
      foldSteps (trialsFacetStep R seen clk) (c :: restC)
        = ((foldSteps (trialsFacetStep R seen clk) restC).1,
           (trialsFacetStep R seen clk c).2
             ++ (foldSteps (trialsFacetStep R seen clk) restC).2)) ∧
    ((R.adverse p).status ≠ 200 →
      foldSteps (adverseFacetStep R seen clk) (p :: restP)
        = ((foldSteps (adverseFacetStep R seen clk) restP).1,
           (adverseFacetStep R seen clk p).2
             ++ (foldSteps (adverseFacetStep R seen clk) restP).2)) ∧
    ((R.recalls t).status ≠ 200 →
      foldSteps (recallsFacetStep R seen clk) (t :: restT)
        = ((foldSteps (recallsFacetStep R seen clk) restT).1,
           ["  Fetching device recalls for: " ++ t]
             ++ (foldSteps (recallsFacetStep R seen clk) restT).2)) := by
  have htr : ∀ s : Nat, s = 404 → s ≠ 200 := by intro s h; omega
  refine ⟨?_, ?_, ?_, ?_, ?_, ?_, ?_, ?_, ?_⟩
  · intro h404
    unfold trialsFacetStep
    rw [if_neg (by rw [h404]; decide), if_pos h404]
  · intro h200 h404
    unfold trialsFacetStep
    rw [if_neg h200, if_neg h404]
  · intro h404
    unfold adverseFacetStep
    rw [if_neg (by rw [h404]; decide), if_pos h404]
  · intro h200 h404
    unfold adverseFacetStep
    rw [if_neg h200, if_neg h404]
  · intro h200
    unfold recallsFacetStep
    rw [if_neg h200]
  · intro h200
    unfold dailymedDrugStep
    dsimp only
    rw [if_neg h200]
  · intro h200
    have : (trialsFacetStep R seen clk c).1 = [] := by
      unfold trialsFacetStep
      rw [if_neg h200]
      by_cases h404 : (R.trials c).status = 404 <;> simp [h404]
    rw [foldSteps, this]
    simp
  · intro h200
    have : (adverseFacetStep R seen clk p).1 = [] := by
      unfold adverseFacetStep
      rw [if_neg h200]
      by_cases h404 : (R.adverse p).status = 404 <;> simp [h404]
    rw [foldSteps, this]
    simp
  · intro h200
    have h1 : recallsFacetStep R seen clk t
        = ([], ["  Fetching device recalls for: " ++ t]) := by
      unfold recallsFacetStep
      rw [if_neg h200]
    rw [foldSteps, h1]
    simp

/-- Responses that always return HTTP 500. -/
def C10exAll500 : Responses :=
  { trials := fun _ => ⟨500, none⟩
    adverse := fun _ => ⟨500, none⟩
    recalls := fun _ => ⟨500, none⟩
    dailymedSearch := fun _ => ⟨500, none⟩
    dailymedDetail := fun _ => ⟨500, none⟩ }

/-- C10 (witness): the amended per-facet facts at the concrete all-404 and
all-500 response environments. -/
theorem C10_witness :
    trialsFacetStep C10exR404 ∅ witClk "diabetes"
      = ([], ["  Fetching clinical trials for: diabetes",
              "    No results found for: diabetes"]) ∧
    adverseFacetStep C10exAll500 ∅ witClk "serious:1"
      = ([], ["  Fetching adverse events for: serious:1",
              "    API error 500 for: serious:1"]) ∧
    recallsFacetStep C10exR500 ∅ witClk "x"
      = ([], ["  Fetching device recalls for: x"]) ∧
    dailymedDrugStep C10exR500 ∅ witClk "high_risk_drugs" "warfarin" [7]
      = ([], [], [7]) := by
  have h := C10_status_handling_amended C10exR500 ∅ witClk
    "diabetes" "serious:1" "x" "high_risk_drugs" "warfarin" [7] [] [] []
  have h4 := C10_status_handling_amended C10exR404 ∅ witClk
    "diabetes" "serious:1" "x" "high_risk_drugs" "warfarin" [7] [] [] []
  have h5 := C10_status_handling_amended C10exAll500 ∅ witClk
    "diabetes" "serious:1" "x" "high_risk_drugs" "warfarin" [7] [] [] []
  refine ⟨h4.1 (by decide), ?_, h.2.2.2.2.1 (by decide), h.2.2.2.2.2.1 (by decide)⟩
  · exact h5.2.2.2.1 (by decide) (by decide)

/-- Did the modelled computation avoid raising? -/
def exceptOk : Except Unit α → Bool
  | .ok _ => true
  | .error _ => false

/-- The trials normalizer stores the url it was given. -/
theorem createTrial_url (study : JValue) (url : String) (clk : Clock)
    (r : CanonicalRecord) (h : create_clinical_trial_v2_record study url clk = .ok r) :
    r.source_url = url := by
  unfold create_clinical_trial_v2_record at h
  dsimp only at h
  split at h
  · injection h with h
    subst h
    rfl
  · exact absurd h (by simp)

/-- The adverse-events normalizer stores the url it was given. -/
theorem createAdverse_url (event dn : JValue) (url : String) (clk : Clock)
    (r : CanonicalRecord) (h : create_adverse_event_record event dn url clk = .ok r) :
    r.source_url = url := by
  unfold create_adverse_event_record at h
  dsimp only at h
  split at h
  · injection h with h
    subst h
    rfl
  · exact absurd h (by simp)

/-- The device-recall normalizer stores the url it was given. -/
theorem createRecall_url (recallItem : JValue) (url : String) (clk : Clock)
    (r : CanonicalRecord) (h : create_enhanced_device_recall_record recallItem url clk = .ok r) :
    r.source_url = url := by
  unfold create_enhanced_device_recall_record at h
  dsimp only at h
  split at h
  · exact absurd h (by simp)
  · split at h
    · injection h with h
      subst h
      rfl
    · exact absurd h (by simp)

/-- Whether the trials normalizer raises depends only on the study payload,
not the clock. -/
theorem createTrial_isOk_clock (study : JValue) (url : String) (clk clk' : Clock) :
    exceptOk (create_clinical_trial_v2_record study url clk)
      = exceptOk (create_clinical_trial_v2_record study url clk') := by
  unfold create_clinical_trial_v2_record
  dsimp only
  split <;> rfl

/-- Whether the adverse-events normalizer raises depends only on the event
payload, not the clock. -/
theorem createAdverse_isOk_clock (event dn : JValue) (url : String) (clk clk' : Clock) :
    exceptOk (create_adverse_event_record event dn url clk)
      = exceptOk (create_adverse_event_record event dn url clk') := by
  unfold create_adverse_event_record
  dsimp only
  split <;> rfl

/-- Whether the device-recall normalizer raises depends only on the recall
payload, not the clock. -/
theorem createRecall_isOk_clock (recallItem : JValue) (url : String) (clk clk' : Clock) :
    exceptOk (create_enhanced_device_recall_record recallItem url clk)
      = exceptOk (create_enhanced_device_recall_record recallItem url clk') := by
  unfold create_enhanced_device_recall_record
  dsimp only
  split
  · rfl
  · split <;> rfl

/-- The study list a clinical-trials facet iterates, as determined by the
response alone (empty whenever the facet yields no item loop). -/
def trialsFacetStudies (resp : HttpResp) : List JValue :=
  if resp.status = 200 then
    match resp.body with
    | none => []
    | some data =>
      match jContains data "studies" with
      | Except.error _ => []
      | Except.ok hasStudies =>
        if hasStudies then
          match jIndexStr data "studies" with
          | Except.error _ => []
          | Except.ok studiesVal =>
            if pyTruthy studiesVal then
              match jLen studiesVal, pySlice studiesVal 12 with
              | Except.ok _, Except.ok studies => studies
              | _, _ => []
            else []
        else []
  else []

/-- The event list an adverse-events facet iterates. -/
def adverseFacetEvents (resp : HttpResp) : List JValue :=
  if resp.status = 200 then
    match resp.body with
    | none => []
    | some data =>
      match jContains data "results" with
      | Except.error _ => []
      | Except.ok hasResults =>
        if hasResults then
          match jIndexStr data "results" with
          | Except.error _ => []
          | Except.ok rs =>
            match jLen rs, pySlice rs 8 with
            | Except.ok _, Except.ok events => events
            | _, _ => []
        else []
  else []

/-- The recall list a device-recalls facet iterates. -/
def recallsFacetList (resp : HttpResp) : List JValue :=
  if resp.status = 200 then
    match resp.body with
    | none => []
    | some data =>
      match jContains data "results" with
      | Except.error _ => []
      | Except.ok hasResults =>
        if hasResults then
          match jIndexStr data "results" with
          | Except.error _ => []
          | Except.ok rs =>
            match jLen rs, pySlice rs 10 with
            | Except.ok _, Except.ok recallItems => recallItems
            | _, _ => []
        else []
  else []

/-- The spl list a DailyMed drug iteration walks. -/
def dailymedDrugSpls (resp : HttpResp) : List JValue :=
  if resp.status = 200 then
    match resp.body with
    | none => []
    | some data =>
      match data with
      | JValue.obj fs =>
        match pySlice ((jGet? fs "data").getD (JValue.arr [])) 3 with
        | Except.ok spls => spls
        | Except.error _ => []
      | _ => []
  else []

/-- The items of a clinical-trials facet are the per-study yields over its
study list. -/
theorem trialsFacetStep_items (R : Responses) (seen : Finset String) (clk : Clock)
    (c : String) :
    (trialsFacetStep R seen clk c).1
      = (foldSteps (trialsStudyStep seen clk) (trialsFacetStudies (R.trials c))).1 := by
  unfold trialsFacetStep trialsFacetStudies
  try dsimp only
  by_cases h200 : (R.trials c).status = 200
  · rw [if_pos h200, if_pos h200]
    cases hb : (R.trials c).body with
    | none => rfl
    | some data =>
      try dsimp only
      cases hc : jContains data "studies" with
      | error e => rfl
      | ok hasStudies =>
        try dsimp only
        cases hasStudies with
        | false => rfl
        | true =>
          try dsimp only
          cases hv : jIndexStr data "studies" with
          | error e => rfl
          | ok sv =>
            try dsimp only
            by_cases ht : pyTruthy sv = true
            · rw [if_pos ht, if_pos ht]
              cases hn : jLen sv with
              | error e =>
                try dsimp only
                cases hs : pySlice sv 12 with
                | error e2 => rfl
                | ok studies => rfl
              | ok n =>
                try dsimp only
                cases hs : pySlice sv 12 with
                | error e2 => rfl
                | ok studies => rfl
            · rw [if_neg ht, if_neg ht]
              rfl
  · rw [if_neg h200, if_neg h200]
    by_cases h404 : (R.trials c).status = 404
    · rw [if_pos h404]
      rfl
    · rw [if_neg h404]
      rfl

/-- The items of an adverse-events facet are the per-event yields over its
event list. -/
theorem adverseFacetStep_items (R : Responses) (seen : Finset String) (clk : Clock)
    (p : String) :
    (adverseFacetStep R seen clk p).1
      = (foldSteps (adverseEventStep seen clk) (adverseFacetEvents (R.adverse p))).1 := by
  unfold adverseFacetStep adverseFacetEvents
  try dsimp only
  by_cases h200 : (R.adverse p).status = 200
  · rw [if_pos h200, if_pos h200]
    cases hb : (R.adverse p).body with
    | none => rfl
    | some data =>
      try dsimp only
      cases hc : jContains data "results" with
      | error e => rfl
      | ok hasResults =>
        try dsimp only
        cases hasResults with
        | false => rfl
        | true =>
          try dsimp only
          cases hv : jIndexStr data "results" with
          | error e => rfl
          | ok rs =>
            try dsimp only
            cases hn : jLen rs with
            | error e =>
              try dsimp only
              cases hs : pySlice rs 8 with
              | error e2 => rfl
              | ok events => rfl
            | ok n =>
              try dsimp only
              cases hs : pySlice rs 8 with
              | error e2 => rfl
              | ok events => rfl
  · rw [if_neg h200, if_neg h200]
    by_cases h404 : (R.adverse p).status = 404
    · rw [if_pos h404]
      rfl
    · rw [if_neg h404]
      rfl

/-- The items of a device-recalls facet are the per-recall yields over its
recall list. -/
theorem recallsFacetStep_items (R : Responses) (seen : Finset String) (clk : Clock)
    (t : String) :
    (recallsFacetStep R seen clk t).1
      = (foldSteps (recallItemStep seen clk) (recallsFacetList (R.recalls t))).1 := by
  unfold recallsFacetStep recallsFacetList
  try dsimp only
  by_cases h200 : (R.recalls t).status = 200
  · rw [if_pos h200, if_pos h200]
    cases hb : (R.recalls t).body with
    | none => rfl
    | some data =>
      try dsimp only
      cases hc : jContains data "results" with
      | error e => rfl
      | ok hasResults =>
        try dsimp only
        cases hasResults with
        | false => rfl
        | true =>
          try dsimp only
          cases hv : jIndexStr data "results" with
          | error e => rfl
          | ok rs =>
            try dsimp only
            cases hn : jLen rs with
            | error e =>
              try dsimp only
              cases hs : pySlice rs 10 with
              | error e2 => rfl
              | ok recallItems => rfl
            | ok n =>
              try dsimp only
              cases hs : pySlice rs 10 with
              | error e2 => rfl
              | ok recallItems => rfl
  · rw [if_neg h200, if_neg h200]
    rfl

/-- The items of a DailyMed drug step are the spl-loop yields over its
spl list. -/
theorem dailymedDrugStep_items (R : Responses) (seen : Finset String) (clk : Clock)
    (category drug : String) (rng : List Nat) :
    (dailymedDrugStep R seen clk category drug rng).1
      = (dailymedSpls R seen drug category clk
          (dailymedDrugSpls (R.dailymedSearch drug)) rng).1 := by
  unfold dailymedDrugStep dailymedDrugSpls
  try dsimp only
  by_cases h200 : (R.dailymedSearch drug).status = 200
  · rw [if_pos h200, if_pos h200]
    cases hb : (R.dailymedSearch drug).body with
    | none => rfl
    | some data =>
      try dsimp only
      cases data with
      | obj fs =>
        try dsimp only
        cases hs : pySlice ((jGet? fs "data").getD (JValue.arr [])) 3 with
        | error e => rfl
        | ok spls => rfl
      | null => rfl
      | bool b => rfl
      | num n => rfl
      | str s => rfl
      | arr xs => rfl
  · rw [if_neg h200, if_neg h200]
    rfl

theorem foldSteps_mem {α : Type} (f : α → List CanonicalRecord × List String) :
    ∀ (l : List α) (i : CanonicalRecord), i ∈ (foldSteps f l).1 → ∃ x ∈ l, i ∈ (f x).1 := by
  intro l
  induction l with
  | nil => intro i hi; simp [foldSteps] at hi
  | cons x xs ih =>
    intro i hi
    rw [foldSteps] at hi
    dsimp only at hi
    rcases List.mem_append.mp hi with h | h
    · exact ⟨x, List.mem_cons_self x xs, h⟩
    · obtain ⟨y, hy, hiy⟩ := ih i h
      exact ⟨y, List.mem_cons_of_mem x hy, hiy⟩

theorem foldSteps_cov {α : Type} (f : α → List CanonicalRecord × List String) :
    ∀ (l : List α) (x : α), x ∈ l → ∀ i ∈ (f x).1, i ∈ (foldSteps f l).1 := by
  intro l
  induction l with
  | nil => intro x hx; simp at hx
  | cons y ys ih =>
    intro x hx i hi
    rw [foldSteps]
    dsimp only
    rcases List.mem_cons.mp hx with rfl | hx
    · exact List.mem_append_left _ hi
    · exact List.mem_append_right _ (ih x hx i hi)

/-- What membership in a per-study yield tells us. -/
theorem trialsStudyStep_mem (seen : Finset String) (clk : Clock) (study : JValue)
    (i : CanonicalRecord) (hi : i ∈ (trialsStudyStep seen clk study).1) :
    pyTruthy (trialsNct study) = true ∧
    i.source_url = trialsUrl (trialsNct study) ∧
    i.source_url ∉ seen ∧
    exceptOk (create_clinical_trial_v2_record study i.source_url clk) = true := by
  unfold trialsStudyStep at hi
  dsimp only at hi
  split at hi
  · simp at hi
  · rename_i hT
    split at hi
    · simp at hi
    · rename_i hS
      cases hr : create_clinical_trial_v2_record study (trialsUrl (trialsNct study)) clk with
      | error e =>
        rw [hr] at hi
        simp at hi
      | ok r =>
        rw [hr] at hi
        dsimp only at hi
        simp only [List.mem_singleton] at hi
        subst hi
        have hurl := createTrial_url study _ clk i hr
        refine ⟨by simpa using hT, hurl, hurl ▸ hS, ?_⟩
        rw [hurl, hr]
        rfl

/-- Every study eligible to yield either has an already-seen url or appears
in the yields. -/
theorem trialsStudyStep_cov (seen : Finset String) (clk : Clock) (study : JValue)
    (hT : pyTruthy (trialsNct study) = true)
    (hok : exceptOk (create_clinical_trial_v2_record study (trialsUrl (trialsNct study)) clk)
      = true) :
    trialsUrl (trialsNct study) ∈ seen ∨
      trialsUrl (trialsNct study)
        ∈ (trialsStudyStep seen clk study).1.map CanonicalRecord.source_url := by
  by_cases hS : trialsUrl (trialsNct study) ∈ seen
  · exact Or.inl hS
  · right
    unfold trialsStudyStep
    dsimp only
    rw [if_neg (by simp [hT]), if_neg hS]
    cases hr : create_clinical_trial_v2_record study (trialsUrl (trialsNct study)) clk with
    | error e => rw [hr] at hok; exact absurd hok (by simp [exceptOk])
    | ok r =>
      simp only [List.map_cons, List.map_nil, List.mem_singleton]
      exact (createTrial_url study _ clk r hr).symm

/-- What membership in a per-event yield tells us. -/
theorem adverseEventStep_mem (seen : Finset String) (clk : Clock) (event : JValue)
    (i : CanonicalRecord) (hi : i ∈ (adverseEventStep seen clk event).1) :
    i.source_url = adverseUrl (adverseSid event) ∧
    i.source_url ∉ seen ∧
    exceptOk (create_adverse_event_record event (adverseDrugName event) i.source_url clk)
      = true := by
  unfold adverseEventStep at hi
  dsimp only at hi
  split at hi
  · simp at hi
  · rename_i hS
    cases hr : create_adverse_event_record event (adverseDrugName event)
        (adverseUrl (adverseSid event)) clk with
    | error e =>
      rw [hr] at hi
      simp at hi
    | ok r =>
      rw [hr] at hi
      dsimp only at hi
      simp only [List.mem_singleton] at hi
      subst hi
      have hurl := createAdverse_url event _ _ clk i hr
      refine ⟨hurl, hurl ▸ hS, ?_⟩
      rw [hurl, hr]
      rfl

theorem adverseEventStep_cov (seen : Finset String) (clk : Clock) (event : JValue)
    (hok : exceptOk (create_adverse_event_record event (adverseDrugName event)
      (adverseUrl (adverseSid event)) clk) = true) :
    adverseUrl (adverseSid event) ∈ seen ∨
      adverseUrl (adverseSid event)
        ∈ (adverseEventStep seen clk event).1.map CanonicalRecord.source_url := by
  by_cases hS : adverseUrl (adverseSid event) ∈ seen
  · exact Or.inl hS
  · right
    unfold adverseEventStep
    dsimp only
    rw [if_neg hS]
    cases hr : create_adverse_event_record event (adverseDrugName event)
        (adverseUrl (adverseSid event)) clk with
    | error e => rw [hr] at hok; exact absurd hok (by simp [exceptOk])
    | ok r =>
      simp only [List.map_cons, List.map_nil, List.mem_singleton]
      exact (createAdverse_url event _ _ clk r hr).symm

/-- What membership in a per-recall yield tells us. -/
theorem recallItemStep_mem (seen : Finset String) (clk : Clock) (recallItem : JValue)
    (i : CanonicalRecord) (hi : i ∈ (recallItemStep seen clk recallItem).1) :
    i.source_url = recallsUrl (recallNum recallItem) ∧
    i.source_url ∉ seen ∧
    exceptOk (create_enhanced_device_recall_record recallItem i.source_url clk) = true := by
  unfold recallItemStep at hi
  dsimp only at hi
  split at hi
  · simp at hi
  · rename_i hS
    cases hr : create_enhanced_device_recall_record recallItem
        (recallsUrl (recallNum recallItem)) clk with
    | error e =>
      rw [hr] at hi
      simp at hi
    | ok r =>
      rw [hr] at hi
      dsimp only at hi
      simp only [List.mem_singleton] at hi
      subst hi
      have hurl := createRecall_url recallItem _ clk i hr
      refine ⟨hurl, hurl ▸ hS, ?_⟩
      rw [hurl, hr]
      rfl

theorem recallItemStep_cov (seen : Finset String) (clk : Clock) (recallItem : JValue)
    (hok : exceptOk (create_enhanced_device_recall_record recallItem
      (recallsUrl (recallNum recallItem)) clk) = true) :
    recallsUrl (recallNum recallItem) ∈ seen ∨
      recallsUrl (recallNum recallItem)
        ∈ (recallItemStep seen clk recallItem).1.map CanonicalRecord.source_url := by
  by_cases hS : recallsUrl (recallNum recallItem) ∈ seen
  · exact Or.inl hS
  · right
    unfold recallItemStep
    dsimp only
    rw [if_neg hS]
    cases hr : create_enhanced_device_recall_record recallItem
        (recallsUrl (recallNum recallItem)) clk with
    | error e => rw [hr] at hok; exact absurd hok (by simp [exceptOk])
    | ok r =>
      simp only [List.map_cons, List.map_nil, List.mem_singleton]
      exact (createRecall_url recallItem _ clk r hr).symm

/-- Well-formedness of one spl entry with respect to the detail endpoint: it
is a dict, and if its setid is truthy and the detail GET returns 200 the
detail body parses.  These are exactly the conditions under which the spl
loop cannot raise mid-iteration. -/
def splWF (R : Responses) : JValue → Bool
  | JValue.obj fs =>
    if pyTruthy (splSetid fs) then
      if (R.dailymedDetail (dailymedDetailUrl (splSetid fs))).status = 200 then
        (R.dailymedDetail (dailymedDetailUrl (splSetid fs))).body.isSome
      else true
    else true
  | _ => false

/-- Well-formedness of the responses seen by one DailyMed drug iteration. -/
def dailymedDrugWF (R : Responses) (drug : String) : Bool :=
  (dailymedDrugSpls (R.dailymedSearch drug)).all (splWF R)

/-- Well-formedness of every response the DailyMed harvester consumes. -/
def dailymedWF (R : Responses) : Bool :=
  dailymedPairs.all (fun p => dailymedDrugWF R p.2)

theorem dailymedSpls_mem (R : Responses) (seen : Finset String) (drug category : String)
    (clk : Clock) :
    ∀ (spls : List JValue) (rng : List Nat) (i : CanonicalRecord),
      i ∈ (dailymedSpls R seen drug category clk spls rng).1 →
      ∃ fs, JValue.obj fs ∈ spls ∧
        pyTruthy (splSetid fs) = true ∧
        i.source_url = dailymedDetailUrl (splSetid fs) ∧
        i.source_url ∉ seen ∧
        (R.dailymedDetail (dailymedDetailUrl (splSetid fs))).status = 200 := by
  intro spls
  induction spls with
  | nil => intro rng i hi; simp [dailymedSpls] at hi
  | cons spl rest ih =>
    intro rng i hi
    unfold dailymedSpls at hi
    dsimp only at hi
    cases spl with
    | obj fs =>
      dsimp only at hi
      by_cases hT : pyTruthy (splSetid fs) = false
      · rw [if_pos hT] at hi
        obtain ⟨fs2, h1, h2⟩ := ih rng i hi
        exact ⟨fs2, List.mem_cons_of_mem _ h1, h2⟩
      · rw [if_neg hT] at hi
        by_cases hS : dailymedDetailUrl (splSetid fs) ∈ seen
        · rw [if_pos hS] at hi
          obtain ⟨fs2, h1, h2⟩ := ih rng i hi
          exact ⟨fs2, List.mem_cons_of_mem _ h1, h2⟩
        · rw [if_neg hS] at hi
          by_cases h200 : (R.dailymedDetail (dailymedDetailUrl (splSetid fs))).status = 200
          · rw [if_pos h200] at hi
            cases hb : (R.dailymedDetail (dailymedDetailUrl (splSetid fs))).body with
            | none =>
              rw [hb] at hi
              simp at hi
            | some detail_data =>
              rw [hb] at hi
              dsimp only at hi
              rcases List.mem_cons.mp hi with rfl | hi
              · refine ⟨fs, List.mem_cons_self _ _, by simpa using hT, rfl, hS, h200⟩
              · obtain ⟨fs2, h1, h2⟩ := ih _ i hi
                exact ⟨fs2, List.mem_cons_of_mem _ h1, h2⟩
          · rw [if_neg h200] at hi
            obtain ⟨fs2, h1, h2⟩ := ih rng i hi
            exact ⟨fs2, List.mem_cons_of_mem _ h1, h2⟩
    | null => simp at hi
    | bool b => simp at hi
    | num n => simp at hi
    | str s => simp at hi
    | arr xs => simp at hi

theorem dailymedSpls_cov (R : Responses) (seen : Finset String) (drug category : String)
    (clk : Clock) :
    ∀ (spls : List JValue) (rng : List Nat),
      (∀ spl ∈ spls, splWF R spl = true) →
      ∀ fs, JValue.obj fs ∈ spls →
        pyTruthy (splSetid fs) = true →
        (R.dailymedDetail (dailymedDetailUrl (splSetid fs))).status = 200 →
        dailymedDetailUrl (splSetid fs) ∈ seen ∨
          dailymedDetailUrl (splSetid fs)
            ∈ (dailymedSpls R seen drug category clk spls rng).1.map
                CanonicalRecord.source_url := by
  intro spls
  induction spls with
  | nil => intro rng _ fs h; simp at h
  | cons spl rest ih =>
    intro rng hwf fs hmem hT h200
    have hwfrest : ∀ s ∈ rest, splWF R s = true :=
      fun s hs => hwf s (List.mem_cons_of_mem _ hs)
    have hwfhead := hwf spl (List.mem_cons_self _ _)
    rcases List.mem_cons.mp hmem with rfl | hmem2
    · by_cases hS : dailymedDetailUrl (splSetid fs) ∈ seen
      · exact Or.inl hS
      · right
        have hbody : (R.dailymedDetail (dailymedDetailUrl (splSetid fs))).body.isSome = true := by
          unfold splWF at hwfhead
          dsimp only at hwfhead
          rw [if_pos hT, if_pos h200] at hwfhead
          exact hwfhead
        obtain ⟨detail_data, hb⟩ := Option.isSome_iff_exists.mp hbody
        unfold dailymedSpls
        dsimp only
        rw [if_neg (by simp [hT]), if_neg hS, if_pos h200, hb]
        dsimp only
        simp only [List.map_cons, List.mem_cons]
        exact Or.inl rfl
    · -- the sought spl is further down; show the head never blocks it
      cases spl with
      | obj fs0 =>
        unfold dailymedSpls
        dsimp only
        by_cases hT0 : pyTruthy (splSetid fs0) = false
        · rw [if_pos hT0]
          exact ih rng hwfrest fs hmem2 hT h200
        · rw [if_neg hT0]
          by_cases hS0 : dailymedDetailUrl (splSetid fs0) ∈ seen
          · rw [if_pos hS0]
            exact ih rng hwfrest fs hmem2 hT h200
          · rw [if_neg hS0]
            by_cases h2000 : (R.dailymedDetail (dailymedDetailUrl (splSetid fs0))).status = 200
            · have hbody0 : (R.dailymedDetail
                  (dailymedDetailUrl (splSetid fs0))).body.isSome = true := by
                unfold splWF at hwfhead
                dsimp only at hwfhead
                rw [if_pos (by simpa using hT0), if_pos h2000] at hwfhead
                exact hwfhead
              obtain ⟨dd, hb0⟩ := Option.isSome_iff_exists.mp hbody0
              rw [if_pos h2000, hb0]
              dsimp only
              rcases ih (create_drug_change_record drug dd
                  (dailymedDetailUrl (splSetid fs0)) category clk rng).2
                  hwfrest fs hmem2 hT h200 with hl | hr
              · exact Or.inl hl
              · right
                simp only [List.map_cons, List.mem_cons]
                exact Or.inr hr
            · rw [if_neg h2000]
              exact ih rng hwfrest fs hmem2 hT h200
      | null => simp [splWF] at hwfhead
      | bool b => simp [splWF] at hwfhead
      | num n => simp [splWF] at hwfhead
      | str s => simp [splWF] at hwfhead
      | arr xs => simp [splWF] at hwfhead

theorem harvest_trials_mem (R : Responses) (seen : Finset String) (clk : Clock)
    (i : CanonicalRecord) (hi : i ∈ (harvest_clinical_trials_v2 R seen clk).1) :
    ∃ c ∈ search_conditions.take 4, ∃ study ∈ trialsFacetStudies (R.trials c),
      pyTruthy (trialsNct study) = true ∧
      i.source_url = trialsUrl (trialsNct study) ∧
      i.source_url ∉ seen ∧
      exceptOk (create_clinical_trial_v2_record study i.source_url clk) = true := by
  unfold harvest_clinical_trials_v2 at hi
  obtain ⟨c, hc, hic⟩ := foldSteps_mem _ _ i hi
  rw [trialsFacetStep_items] at hic
  obtain ⟨study, hst, hist⟩ := foldSteps_mem _ _ i hic
  exact ⟨c, hc, study, hst, trialsStudyStep_mem seen clk study i hist⟩

theorem harvest_trials_cov (R : Responses) (seen : Finset String) (clk : Clock)
    (c : String) (hc : c ∈ search_conditions.take 4)
    (study : JValue) (hst : study ∈ trialsFacetStudies (R.trials c))
    (hT : pyTruthy (trialsNct study) = true)
    (hok : exceptOk (create_clinical_trial_v2_record study
      (trialsUrl (trialsNct study)) clk) = true) :
    trialsUrl (trialsNct study) ∈ seen ∨
      trialsUrl (trialsNct study)
        ∈ (harvest_clinical_trials_v2 R seen clk).1.map CanonicalRecord.source_url := by
  rcases trialsStudyStep_cov seen clk study hT hok with hl | hr
  · exact Or.inl hl
  · right
    obtain ⟨i, hi, hiu⟩ := List.mem_map.mp hr
    have h1 : i ∈ (foldSteps (trialsStudyStep seen clk) (trialsFacetStudies (R.trials c))).1 :=
      foldSteps_cov _ _ study hst i hi
    rw [← trialsFacetStep_items] at h1
    have h2 : i ∈ (harvest_clinical_trials_v2 R seen clk).1 := by
      unfold harvest_clinical_trials_v2
      exact foldSteps_cov _ _ c hc i h1
    exact List.mem_map.mpr ⟨i, h2, hiu⟩

theorem harvest_adverse_mem (R : Responses) (seen : Finset String) (clk : Clock)
    (i : CanonicalRecord) (hi : i ∈ (harvest_fda_adverse_events R seen clk).1) :
    ∃ p ∈ all_patterns.take 6, ∃ event ∈ adverseFacetEvents (R.adverse p),
      i.source_url = adverseUrl (adverseSid event) ∧
      i.source_url ∉ seen ∧
      exceptOk (create_adverse_event_record event (adverseDrugName event)
        i.source_url clk) = true := by
  unfold harvest_fda_adverse_events at hi
  obtain ⟨p, hp, hip⟩ := foldSteps_mem _ _ i hi
  rw [adverseFacetStep_items] at hip
  obtain ⟨event, hev, hiev⟩ := foldSteps_mem _ _ i hip
  exact ⟨p, hp, event, hev, adverseEventStep_mem seen clk event i hiev⟩

theorem harvest_adverse_cov (R : Responses) (seen : Finset String) (clk : Clock)
    (p : String) (hp : p ∈ all_patterns.take 6)
    (event : JValue) (hev : event ∈ adverseFacetEvents (R.adverse p))
    (hok : exceptOk (create_adverse_event_record event (adverseDrugName event)
      (adverseUrl (adverseSid event)) clk) = true) :
    adverseUrl (adverseSid event) ∈ seen ∨
      adverseUrl (adverseSid event)
        ∈ (harvest_fda_adverse_events R seen clk).1.map CanonicalRecord.source_url := by
  rcases adverseEventStep_cov seen clk event hok with hl | hr
  · exact Or.inl hl
  · right
    obtain ⟨i, hi, hiu⟩ := List.mem_map.mp hr
    have h1 : i ∈ (foldSteps (adverseEventStep seen clk) (adverseFacetEvents (R.adverse p))).1 :=
      foldSteps_cov _ _ event hev i hi
    rw [← adverseFacetStep_items] at h1
    have h2 : i ∈ (harvest_fda_adverse_events R seen clk).1 := by
      unfold harvest_fda_adverse_events
      exact foldSteps_cov _ _ p hp i h1
    exact List.mem_map.mpr ⟨i, h2, hiu⟩

theorem harvest_recalls_mem (R : Responses) (seen : Finset String) (clk : Clock)
    (i : CanonicalRecord) (hi : i ∈ (harvest_fda_device_recalls_enhanced R seen clk).1) :
    ∃ t ∈ search_terms.take 3, ∃ recallItem ∈ recallsFacetList (R.recalls t),
      i.source_url = recallsUrl (recallNum recallItem) ∧
      i.source_url ∉ seen ∧
      exceptOk (create_enhanced_device_recall_record recallItem i.source_url clk) = true := by
  unfold harvest_fda_device_recalls_enhanced at hi
  obtain ⟨t, ht, hit⟩ := foldSteps_mem _ _ i hi
  rw [recallsFacetStep_items] at hit
  obtain ⟨recallItem, hrc, hirc⟩ := foldSteps_mem _ _ i hit
  exact ⟨t, ht, recallItem, hrc, recallItemStep_mem seen clk recallItem i hirc⟩

theorem harvest_recalls_cov (R : Responses) (seen : Finset String) (clk : Clock)
    (t : String) (ht : t ∈ search_terms.take 3)
    (recallItem : JValue) (hrc : recallItem ∈ recallsFacetList (R.recalls t))
    (hok : exceptOk (create_enhanced_device_recall_record recallItem
      (recallsUrl (recallNum recallItem)) clk) = true) :
    recallsUrl (recallNum recallItem) ∈ seen ∨
      recallsUrl (recallNum recallItem)
        ∈ (harvest_fda_device_recalls_enhanced R seen clk).1.map
            CanonicalRecord.source_url := by
  rcases recallItemStep_cov seen clk recallItem hok with hl | hr
  · exact Or.inl hl
  · right
    obtain ⟨i, hi, hiu⟩ := List.mem_map.mp hr
    have h1 : i ∈ (foldSteps (recallItemStep seen clk) (recallsFacetList (R.recalls t))).1 :=
      foldSteps_cov _ _ recallItem hrc i hi
    rw [← recallsFacetStep_items] at h1
    have h2 : i ∈ (harvest_fda_device_recalls_enhanced R seen clk).1 := by
      unfold harvest_fda_device_recalls_enhanced
      exact foldSteps_cov _ _ t ht i h1
    exact List.mem_map.mpr ⟨i, h2, hiu⟩

theorem dailymedFold_mem (R : Responses) (seen : Finset String) (clk : Clock) :
    ∀ (pairs : List (String × String)) (rng : List Nat) (i : CanonicalRecord),
      i ∈ (dailymedFold R seen clk pairs rng).1 →
      ∃ p ∈ pairs, ∃ rng2, i ∈ (dailymedDrugStep R seen clk p.1 p.2 rng2).1 := by
  intro pairs
  induction pairs with
  | nil => intro rng i hi; simp [dailymedFold] at hi
  | cons q rest ih =>
    intro rng i hi
    unfold dailymedFold at hi
    dsimp only at hi
    rcases List.mem_append.mp hi with h | h
    · exact ⟨q, List.mem_cons_self _ _, rng, h⟩
    · obtain ⟨p, hp, rng2, hp2⟩ := ih _ i h
      exact ⟨p, List.mem_cons_of_mem _ hp, rng2, hp2⟩

theorem dailymedFold_cov (R : Responses) (seen : Finset String) (clk : Clock) (u : String) :
    ∀ (pairs : List (String × String)) (rng : List Nat) (p : String × String),
      p ∈ pairs →
      (∀ rng2, u ∈ seen ∨
        u ∈ (dailymedDrugStep R seen clk p.1 p.2 rng2).1.map CanonicalRecord.source_url) →
      u ∈ seen ∨
        u ∈ (dailymedFold R seen clk pairs rng).1.map CanonicalRecord.source_url := by
  intro pairs
  induction pairs with
  | nil => intro rng p hp; simp at hp
  | cons q rest ih =>
    intro rng p hp hcov
    rcases List.mem_cons.mp hp with rfl | hp
    · rcases hcov rng with hl | hr
      · exact Or.inl hl
      · right
        unfold dailymedFold
        dsimp only
        rw [List.map_append]
        exact List.mem_append_left _ hr
    · rcases ih _ p hp hcov with hl | hr
      · exact Or.inl hl
      · right
        unfold dailymedFold
        dsimp only
        rw [List.map_append]
        exact List.mem_append_right _ hr

theorem harvest_dailymed_mem (R : Responses) (seen : Finset String) (clk : Clock)
    (rng : List Nat) (i : CanonicalRecord)
    (hi : i ∈ (harvest_fda_dailymed_changes R seen clk rng).1) :
    ∃ p ∈ dailymedPairs, ∃ fs, JValue.obj fs ∈ dailymedDrugSpls (R.dailymedSearch p.2) ∧
      pyTruthy (splSetid fs) = true ∧
      i.source_url = dailymedDetailUrl (splSetid fs) ∧
      i.source_url ∉ seen ∧
      (R.dailymedDetail (dailymedDetailUrl (splSetid fs))).status = 200 := by
  unfold harvest_fda_dailymed_changes at hi
  obtain ⟨p, hp, rng2, hp2⟩ := dailymedFold_mem R seen clk dailymedPairs rng i hi
  rw [dailymedDrugStep_items] at hp2
  obtain ⟨fs, hmem, h⟩ := dailymedSpls_mem R seen p.2 p.1 clk _ rng2 i hp2
  exact ⟨p, hp, fs, hmem, h⟩

theorem harvest_dailymed_cov (R : Responses) (seen : Finset String) (clk : Clock)
    (rng : List Nat) (hwf : dailymedWF R = true)
    (p : String × String) (hp : p ∈ dailymedPairs)
    (fs : List (String × JValue))
    (hmem : JValue.obj fs ∈ dailymedDrugSpls (R.dailymedSearch p.2))
    (hT : pyTruthy (splSetid fs) = true)
    (h200 : (R.dailymedDetail (dailymedDetailUrl (splSetid fs))).status = 200) :
    dailymedDetailUrl (splSetid fs) ∈ seen ∨
      dailymedDetailUrl (splSetid fs)
        ∈ (harvest_fda_dailymed_changes R seen clk rng).1.map CanonicalRecord.source_url := by
  have hdrug : dailymedDrugWF R p.2 = true := by
    rw [dailymedWF, List.all_eq_true] at hwf
    exact hwf p hp
  have hsplwf : ∀ spl ∈ dailymedDrugSpls (R.dailymedSearch p.2), splWF R spl = true := by
    rw [dailymedDrugWF, List.all_eq_true] at hdrug
    exact hdrug
  unfold harvest_fda_dailymed_changes
  apply dailymedFold_cov R seen clk _ dailymedPairs rng p hp
  intro rng2
  rw [dailymedDrugStep_items]
  exact dailymedSpls_cov R seen p.2 p.1 clk _ rng2 hsplwf fs hmem hT h200

theorem accumItems_newly_mono (seen : Finset String) (items batch : List CanonicalRecord)
    (newly : List String) :
    ∀ u ∈ newly, u ∈ (accumItems seen items batch newly).2 := by
  intro u hu
  rw [accumItems_spec]
  exact List.mem_append_left _ hu

theorem accumItems_covers (seen : Finset String) (items batch : List CanonicalRecord)
    (newly : List String) (u : String) (hu : u ∈ items.map CanonicalRecord.source_url) :
    u ∈ seen ∨ u ∈ (accumItems seen items batch newly).2 := by
  rw [accumItems_spec]
  rcases firstOccFilter_covers (seen ∪ newly.toFinset) items u hu with hl | hr
  · rcases Finset.mem_union.mp hl with h | h
    · exact Or.inl h
    · exact Or.inr (List.mem_append_left _ (List.mem_toFinset.mp h))
  · exact Or.inr (List.mem_append_right _ hr)

theorem accumItems_batch_mem (seen : Finset String) (items batch : List CanonicalRecord)
    (newly : List String) :
    ∀ i ∈ (accumItems seen items batch newly).1, i ∈ batch ∨ i ∈ items := by
  intro i hi
  rw [accumItems_spec] at hi
  rcases List.mem_append.mp hi with h | h
  · exact Or.inl h
  · exact Or.inr (firstOccFilter_sublist _ items i h)

theorem accumItems_nodup_invariant (seen : Finset String) (items batch : List CanonicalRecord)
    (newly : List String) (hinv : batch.map CanonicalRecord.source_url = newly)
    (hnd : newly.Nodup) :
    (accumItems seen items batch newly).1.map CanonicalRecord.source_url
      = (accumItems seen items batch newly).2 ∧
    (accumItems seen items batch newly).2.Nodup := by
  rw [accumItems_spec]
  dsimp only
  constructor
  · rw [List.map_append, hinv]
  · refine List.Nodup.append hnd (firstOccFilter_urls_nodup items (seen ∪ newly.toFinset)).1 ?_
    intro u hu1 hu2
    have := (firstOccFilter_urls_nodup items (seen ∪ newly.toFinset)).2 u hu2
    exact this (Finset.mem_union_right seen (List.mem_toFinset.mpr hu1))

/-- Url agreement and distinctness through the four accumulation stages,
stated over arbitrary per-harvester yield lists. -/
theorem accum_chain_nodup (seen : Finset String) (i1 i2 i3 i4 : List CanonicalRecord) :
    (accumItems seen i4
        (accumItems seen i3
          (accumItems seen i2
            (accumItems seen i1 [] []).1 (accumItems seen i1 [] []).2).1
          (accumItems seen i2
            (accumItems seen i1 [] []).1 (accumItems seen i1 [] []).2).2).1
        (accumItems seen i3
          (accumItems seen i2
            (accumItems seen i1 [] []).1 (accumItems seen i1 [] []).2).1
          (accumItems seen i2
            (accumItems seen i1 [] []).1 (accumItems seen i1 [] []).2).2).2).1.map
      CanonicalRecord.source_url
      = (accumItems seen i4
        (accumItems seen i3
          (accumItems seen i2
            (accumItems seen i1 [] []).1 (accumItems seen i1 [] []).2).1
          (accumItems seen i2
            (accumItems seen i1 [] []).1 (accumItems seen i1 [] []).2).2).1
        (accumItems seen i3
          (accumItems seen i2
            (accumItems seen i1 [] []).1 (accumItems seen i1 [] []).2).1
          (accumItems seen i2
            (accumItems seen i1 [] []).1 (accumItems seen i1 [] []).2).2).2).2 ∧
    (accumItems seen i4
        (accumItems seen i3
          (accumItems seen i2
            (accumItems seen i1 [] []).1 (accumItems seen i1 [] []).2).1
          (accumItems seen i2
            (accumItems seen i1 [] []).1 (accumItems seen i1 [] []).2).2).1
        (accumItems seen i3
          (accumItems seen i2
            (accumItems seen i1 [] []).1 (accumItems seen i1 [] []).2).1
          (accumItems seen i2
            (accumItems seen i1 [] []).1 (accumItems seen i1 [] []).2).2).2).2.Nodup := by
  have h1 := accumItems_nodup_invariant seen i1 [] [] rfl List.nodup_nil
  have h2 := accumItems_nodup_invariant seen i2 _ _ h1.1 h1.2
  have h3 := accumItems_nodup_invariant seen i3 _ _ h2.1 h2.2
  exact accumItems_nodup_invariant seen i4 _ _ h3.1 h3.2

/-- Url agreement and distinctness for the full harvested batch. -/
theorem mainHarvested_nodup (R : Responses) (fs : Option (List Char)) (clk : Clock)
    (rng : List Nat) :
    (mainHarvested R fs clk rng).1.map CanonicalRecord.source_url
      = (mainHarvested R fs clk rng).2 ∧
    (mainHarvested R fs clk rng).2.Nodup := by
  unfold mainHarvested
  dsimp only
  exact accum_chain_nodup (load_seen_urls fs) _ _ _ _

/-- Every harvested record's url carries the prefix of the source that
produced it. -/
theorem mainHarvested_url_shape (R : Responses) (fs : Option (List Char)) (clk : Clock)
    (rng : List Nat) (i : CanonicalRecord) (hi : i ∈ (mainHarvested R fs clk rng).1) :
    (∃ s, i.source_url = (dailymedBase ++ "/spls/") ++ s) ∨
    (∃ s, i.source_url = "https://fda.gov/adverse-event/" ++ s) ∨
    (∃ s, i.source_url = "https://www.fda.gov/medical-devices/medical-device-recalls/" ++ s) ∨
    (∃ s, i.source_url = "https://clinicaltrials.gov/study/" ++ s) := by
  unfold mainHarvested at hi
  dsimp only at hi
  rcases accumItems_batch_mem _ _ _ _ i hi with hi3 | hi4
  · rcases accumItems_batch_mem _ _ _ _ i hi3 with hi2 | hi3'
    · rcases accumItems_batch_mem _ _ _ _ i hi2 with hi1 | hi2'
      · rcases accumItems_batch_mem _ _ _ _ i hi1 with hi0 | hi1'
        · simp at hi0
        · obtain ⟨p, _, fs2, _, _, hurl, _⟩ := harvest_dailymed_mem _ _ _ _ i hi1'
          left
          refine ⟨pyStr (splSetid fs2) ++ ".json", ?_⟩
          rw [hurl]
          unfold dailymedDetailUrl
          rw [String.append_assoc]
      · obtain ⟨p, _, event, _, hurl, _⟩ := harvest_adverse_mem _ _ _ i hi2'
        right; left
        exact ⟨pyStr (adverseSid event), hurl⟩
    · obtain ⟨t, _, recallItem, _, hurl, _⟩ := harvest_recalls_mem _ _ _ i hi3'
      right; right; left
      exact ⟨pyStr (recallNum recallItem), hurl⟩
  · obtain ⟨c, _, study, _, _, hurl, _⟩ := harvest_trials_mem _ _ _ i hi4
    right; right; right
    exact ⟨pyStr (trialsNct study), hurl⟩

/-- A prefixed string differs from any string that does not begin with the
prefix. -/
theorem append_ne_of_take (p s t : String) (h : t.data.take p.data.length ≠ p.data) :
    p ++ s ≠ t := by
  intro he
  apply h
  rw [← he]
  show ((p ++ s).data).take p.data.length = p.data
  have hd : (p ++ s).data = p.data ++ s.data := rfl
  rw [hd, List.take_left]

/-- A string with a non-empty prefix is non-empty. -/
theorem append_ne_empty (p s : String) (h : p ≠ "") : p ++ s ≠ "" := by
  intro he
  apply h
  have hd : p.data ++ s.data = [] := congrArg String.data he
  rcases List.append_eq_nil.mp hd with ⟨h1, _⟩
  cases p
  simp_all

/-- The written batch is the harvested batch, optionally extended by the
demo scenarios. -/
theorem mainRun_batch (R : Responses) (fs : Option (List Char)) (clk : Clock)
    (rng : List Nat) (force : Bool) :
    (mainRun R fs clk rng force).1 = (mainHarvested R fs clk rng).1 ∨
    (mainRun R fs clk rng force).1
      = (mainHarvested R fs clk rng).1 ++
        generate_enhanced_demo_scenarios
          (load_seen_urls fs ∪ (mainHarvested R fs clk rng).2.toFinset) clk := by
  unfold mainRun
  dsimp only
  by_cases hc : (force = true ∨ (mainHarvested R fs clk rng).1.length < 15)
  · right
    rw [if_pos hc]
  · left
    rw [if_neg hc]

/-- No harvested url collides with a demo url or is empty. -/
theorem mainHarvested_url_not_demo (R : Responses) (fs : Option (List Char)) (clk : Clock)
    (rng : List Nat) (u : String)
    (hu : u ∈ (mainHarvested R fs clk rng).1.map CanonicalRecord.source_url) :
    u ≠ "https://clinical-guardian-demo.com/scenario/1" ∧
    u ≠ "https://clinical-guardian-demo.com/scenario/2" ∧
    u ≠ "" := by
  obtain ⟨i, hi, rfl⟩ := List.mem_map.mp hu
  rcases mainHarvested_url_shape R fs clk rng i hi with ⟨s, hs⟩ | ⟨s, hs⟩ | ⟨s, hs⟩ | ⟨s, hs⟩ <;>
    rw [hs] <;>
    exact ⟨append_ne_of_take _ _ _ (by decide), append_ne_of_take _ _ _ (by decide),
      append_ne_empty _ _ (by decide)⟩

/-- C6 (confirmed): the per-run CSV has exactly the canonical 30-field
header in the order of section 3 of the spec, every data row has exactly 30
cells, every record's `source_url` is non-empty, no two records of one run
share a `source_url`, and an empty batch still writes the file containing
only the canonical header. -/
theorem C6_csv_schema (R : Responses) (fs : Option (List Char)) (clk : Clock)
    (rng : List Nat) (force : Bool) :
    (writeCsv (mainRun R fs clk rng force).1).head? = some FIELDNAMES ∧
    FIELDNAMES = specSection3Fields ∧
    FIELDNAMES.length = 30 ∧
    (∀ row ∈ (writeCsv (mainRun R fs clk rng force).1).tail, row.length = 30) ∧
    (∀ r ∈ (mainRun R fs clk rng force).1, r.source_url ≠ "") ∧
    ((mainRun R fs clk rng force).1.map CanonicalRecord.source_url).Nodup ∧
    writeCsv [] = [FIELDNAMES] := by
  refine ⟨rfl, by decide, by decide, ?_, ?_, ?_, rfl⟩
  · intro row hrow
    unfold writeCsv at hrow
    simp only [List.tail_cons] at hrow
    obtain ⟨r, _, rfl⟩ := List.mem_map.mp hrow
    rfl
  · intro r hr
    rcases mainRun_batch R fs clk rng force with hb | hb
    · rw [hb] at hr
      exact (mainHarvested_url_not_demo R fs clk rng r.source_url
        (List.mem_map.mpr ⟨r, hr, rfl⟩)).2.2
    · rw [hb] at hr
      rcases List.mem_append.mp hr with hr | hr
      · exact (mainHarvested_url_not_demo R fs clk rng r.source_url
          (List.mem_map.mpr ⟨r, hr, rfl⟩)).2.2
      · rcases List.mem_cons.mp hr with rfl | hr
        · show ("https://clinical-guardian-demo.com/scenario/1" : String) ≠ ""
          decide
        · rcases List.mem_cons.mp hr with rfl | hr
          · show ("https://clinical-guardian-demo.com/scenario/2" : String) ≠ ""
            decide
          · simp at hr
  · rcases mainRun_batch R fs clk rng force with hb | hb
    · rw [hb, (mainHarvested_nodup R fs clk rng).1]
      exact (mainHarvested_nodup R fs clk rng).2
    · rw [hb, List.map_append]
      refine List.Nodup.append ?_ ?_ ?_
      · rw [(mainHarvested_nodup R fs clk rng).1]
        exact (mainHarvested_nodup R fs clk rng).2
      · show (["https://clinical-guardian-demo.com/scenario/1",
          "https://clinical-guardian-demo.com/scenario/2"] : List String).Nodup
        decide
      · intro u hu1 hu2
        have hnd := mainHarvested_url_not_demo R fs clk rng u hu1
        rcases List.mem_cons.mp hu2 with rfl | hu2
        · exact hnd.1 rfl
        · rcases List.mem_cons.mp hu2 with rfl | hu2
          · exact hnd.2.1 rfl
          · simp at hu2

/-- C6 (witness): the schema facts at a concrete demo-only run. -/
theorem C6_witness :
    (writeCsv (mainRun C9exResponses none witClk [] false).1).head? = some FIELDNAMES ∧
    ((mainRun C9exResponses none witClk [] false).1.map CanonicalRecord.source_url).Nodup ∧
    FIELDNAMES = specSection3Fields := by
  have h := C6_csv_schema C9exResponses none witClk [] false
  exact ⟨h.1, h.2.2.2.2.2.1, h.2.1⟩

/-- The loaded seen set at the start of a run. -/
def mhSeen (fs : Option (List Char)) : Finset String := load_seen_urls fs

/-- Yields of the first registered harvester (DailyMed). -/
def mhI1 (R : Responses) (fs : Option (List Char)) (clk : Clock) (rng : List Nat) :
    List CanonicalRecord :=
  (harvest_fda_dailymed_changes R (mhSeen fs ∪ ([] : List String).toFinset) clk rng).1

/-- Accumulator state after the first harvester. -/
def mhA1 (R : Responses) (fs : Option (List Char)) (clk : Clock) (rng : List Nat) :
    List CanonicalRecord × List String :=
  accumItems (mhSeen fs) (mhI1 R fs clk rng) [] []

/-- Yields of the second registered harvester (adverse events). -/
def mhI2 (R : Responses) (fs : Option (List Char)) (clk : Clock) (rng : List Nat) :
    List CanonicalRecord :=
  (harvest_fda_adverse_events R (mhSeen fs ∪ (mhA1 R fs clk rng).2.toFinset) clk).1

/-- Accumulator state after the second harvester. -/
def mhA2 (R : Responses) (fs : Option (List Char)) (clk : Clock) (rng : List Nat) :
    List CanonicalRecord × List String :=
  accumItems (mhSeen fs) (mhI2 R fs clk rng) (mhA1 R fs clk rng).1 (mhA1 R fs clk rng).2

/-- Yields of the third registered harvester (device recalls). -/
def mhI3 (R : Responses) (fs : Option (List Char)) (clk : Clock) (rng : List Nat) :
    List CanonicalRecord :=
  (harvest_fda_device_recalls_enhanced R (mhSeen fs ∪ (mhA2 R fs clk rng).2.toFinset) clk).1

/-- Accumulator state after the third harvester. -/
def mhA3 (R : Responses) (fs : Option (List Char)) (clk : Clock) (rng : List Nat) :
    List CanonicalRecord × List String :=
  accumItems (mhSeen fs) (mhI3 R fs clk rng) (mhA2 R fs clk rng).1 (mhA2 R fs clk rng).2

/-- Yields of the fourth registered harvester (clinical trials). -/
def mhI4 (R : Responses) (fs : Option (List Char)) (clk : Clock) (rng : List Nat) :
    List CanonicalRecord :=
  (harvest_clinical_trials_v2 R (mhSeen fs ∪ (mhA3 R fs clk rng).2.toFinset) clk).1

theorem mainHarvested_eq (R : Responses) (fs : Option (List Char)) (clk : Clock)
    (rng : List Nat) :
    mainHarvested R fs clk rng
      = accumItems (mhSeen fs) (mhI4 R fs clk rng)
          (mhA3 R fs clk rng).1 (mhA3 R fs clk rng).2 := rfl

/-- The urls appended to the seen-set store at the end of a run (the final
state of `newly_seen_urls`). -/
def mainNewly (R : Responses) (fs : Option (List Char)) (clk : Clock) (rng : List Nat)
    (force : Bool) : List String :=
  if force = true ∨ (mainHarvested R fs clk rng).1.length < 15 then
    (generate_enhanced_demo_scenarios
        (load_seen_urls fs ∪ (mainHarvested R fs clk rng).2.toFinset) clk).foldl
      (fun ns it => if it.source_url ∈ ns then ns else ns ++ [it.source_url])
      (mainHarvested R fs clk rng).2
  else (mainHarvested R fs clk rng).2

theorem mainRun_snd (R : Responses) (fs : Option (List Char)) (clk : Clock)
    (rng : List Nat) (force : Bool) :
    (mainRun R fs clk rng force).2 = save_seen_urls fs (mainNewly R fs clk rng force) := by
  unfold mainRun mainNewly
  dsimp only
  by_cases hc : (force = true ∨ (mainHarvested R fs clk rng).1.length < 15)
  · rw [if_pos hc, if_pos hc]
  · rw [if_neg hc, if_neg hc]

theorem foldl_addUrl_mono (l : List CanonicalRecord) :
    ∀ (ns : List String) (u : String), u ∈ ns →
      u ∈ l.foldl (fun ns it => if it.source_url ∈ ns then ns else ns ++ [it.source_url]) ns := by
  induction l with
  | nil => intro ns u hu; exact hu
  | cons it rest ih =>
    intro ns u hu
    simp only [List.foldl_cons]
    by_cases h : it.source_url ∈ ns
    · rw [if_pos h]
      exact ih ns u hu
    · rw [if_neg h]
      exact ih _ u (List.mem_append_left _ hu)

theorem mainNewly_mono (R : Responses) (fs : Option (List Char)) (clk : Clock)
    (rng : List Nat) (force : Bool) (u : String)
    (hu : u ∈ (mainHarvested R fs clk rng).2) :
    u ∈ mainNewly R fs clk rng force := by
  unfold mainNewly
  by_cases hc : (force = true ∨ (mainHarvested R fs clk rng).1.length < 15)
  · rw [if_pos hc]
    exact foldl_addUrl_mono _ _ u hu
  · rw [if_neg hc]
    exact hu

/-- Run-level coverage: after one run, every url any harvester could derive
from the static responses (and successfully normalize) is either in the
loaded seen set or among the urls newly seen by the run. -/
theorem mainHarvested_covers (R : Responses) (fs : Option (List Char)) (clk : Clock)
    (rng : List Nat) :
    (dailymedWF R = true →
      ∀ p ∈ dailymedPairs, ∀ fs2, JValue.obj fs2 ∈ dailymedDrugSpls (R.dailymedSearch p.2) →
        pyTruthy (splSetid fs2) = true →
        (R.dailymedDetail (dailymedDetailUrl (splSetid fs2))).status = 200 →
        dailymedDetailUrl (splSetid fs2) ∈ mhSeen fs ∨
          dailymedDetailUrl (splSetid fs2) ∈ (mainHarvested R fs clk rng).2) ∧
    (∀ p ∈ all_patterns.take 6, ∀ event ∈ adverseFacetEvents (R.adverse p),
      exceptOk (create_adverse_event_record event (adverseDrugName event)
        (adverseUrl (adverseSid event)) clk) = true →
      adverseUrl (adverseSid event) ∈ mhSeen fs ∨
        adverseUrl (adverseSid event) ∈ (mainHarvested R fs clk rng).2) ∧
    (∀ t ∈ search_terms.take 3, ∀ recallItem ∈ recallsFacetList (R.recalls t),
      exceptOk (create_enhanced_device_recall_record recallItem
        (recallsUrl (recallNum recallItem)) clk) = true →
      recallsUrl (recallNum recallItem) ∈ mhSeen fs ∨
        recallsUrl (recallNum recallItem) ∈ (mainHarvested R fs clk rng).2) ∧
    (∀ c ∈ search_conditions.take 4, ∀ study ∈ trialsFacetStudies (R.trials c),
      pyTruthy (trialsNct study) = true →
      exceptOk (create_clinical_trial_v2_record study
        (trialsUrl (trialsNct study)) clk) = true →
      trialsUrl (trialsNct study) ∈ mhSeen fs ∨
        trialsUrl (trialsNct study) ∈ (mainHarvested R fs clk rng).2) := by
  have hm12 : ∀ u ∈ (mhA1 R fs clk rng).2, u ∈ (mhA2 R fs clk rng).2 :=
    fun u hu => accumItems_newly_mono (mhSeen fs) (mhI2 R fs clk rng) _ _ u hu
  have hm23 : ∀ u ∈ (mhA2 R fs clk rng).2, u ∈ (mhA3 R fs clk rng).2 :=
    fun u hu => accumItems_newly_mono (mhSeen fs) (mhI3 R fs clk rng) _ _ u hu
  have hm3h : ∀ u ∈ (mhA3 R fs clk rng).2, u ∈ (mainHarvested R fs clk rng).2 := by
    intro u hu
    rw [mainHarvested_eq]
    exact accumItems_newly_mono (mhSeen fs) (mhI4 R fs clk rng) _ _ u hu
  have hm1h : ∀ u ∈ (mhA1 R fs clk rng).2, u ∈ (mainHarvested R fs clk rng).2 :=
    fun u hu => hm3h u (hm23 u (hm12 u hu))
  have hm2h : ∀ u ∈ (mhA2 R fs clk rng).2, u ∈ (mainHarvested R fs clk rng).2 :=
    fun u hu => hm3h u (hm23 u hu)
  have hc1 : ∀ u ∈ (mhI1 R fs clk rng).map CanonicalRecord.source_url,
      u ∈ mhSeen fs ∨ u ∈ (mainHarvested R fs clk rng).2 := by
    intro u hu
    rcases accumItems_covers (mhSeen fs) (mhI1 R fs clk rng) [] [] u hu with h | h
    · exact Or.inl h
    · exact Or.inr (hm1h u h)
  have hc2 : ∀ u ∈ (mhI2 R fs clk rng).map CanonicalRecord.source_url,
      u ∈ mhSeen fs ∨ u ∈ (mainHarvested R fs clk rng).2 := by
    intro u hu
    rcases accumItems_covers (mhSeen fs) (mhI2 R fs clk rng) _ _ u hu with h | h
    · exact Or.inl h
    · exact Or.inr (hm2h u h)
  have hc3 : ∀ u ∈ (mhI3 R fs clk rng).map CanonicalRecord.source_url,
      u ∈ mhSeen fs ∨ u ∈ (mainHarvested R fs clk rng).2 := by
    intro u hu
    rcases accumItems_covers (mhSeen fs) (mhI3 R fs clk rng) _ _ u hu with h | h
    · exact Or.inl h
    · exact Or.inr (hm3h u h)
  have hc4 : ∀ u ∈ (mhI4 R fs clk rng).map CanonicalRecord.source_url,
      u ∈ mhSeen fs ∨ u ∈ (mainHarvested R fs clk rng).2 := by
    intro u hu
    rw [mainHarvested_eq]
    rcases accumItems_covers (mhSeen fs) (mhI4 R fs clk rng) _ _ u hu with h | h
    · exact Or.inl h
    · exact Or.inr h
  have hseenlift : ∀ (n : List String) (u : String),
      (∀ v ∈ n, v ∈ (mainHarvested R fs clk rng).2) →
      u ∈ mhSeen fs ∪ n.toFinset →
      u ∈ mhSeen fs ∨ u ∈ (mainHarvested R fs clk rng).2 := by
    intro n u hn hu
    rcases Finset.mem_union.mp hu with h | h
    · exact Or.inl h
    · exact Or.inr (hn u (List.mem_toFinset.mp h))
  refine ⟨?_, ?_, ?_, ?_⟩
  · intro hwf p hp fs2 hmem hT h200
    rcases harvest_dailymed_cov R (mhSeen fs ∪ ([] : List String).toFinset) clk rng hwf
        p hp fs2 hmem hT h200 with h | h
    · exact hseenlift [] _ (by simp) h
    · exact hc1 _ h
  · intro p hp event hev hok
    rcases harvest_adverse_cov R (mhSeen fs ∪ (mhA1 R fs clk rng).2.toFinset) clk
        p hp event hev hok with h | h
    · exact hseenlift _ _ hm1h h
    · exact hc2 _ h
  · intro t ht recallItem hrc hok
    rcases harvest_recalls_cov R (mhSeen fs ∪ (mhA2 R fs clk rng).2.toFinset) clk
        t ht recallItem hrc hok with h | h
    · exact hseenlift _ _ hm2h h
    · exact hc3 _ h
  · intro c hc study hst hT hok
    rcases harvest_trials_cov R (mhSeen fs ∪ (mhA3 R fs clk rng).2.toFinset) clk
        c hc study hst hT hok with h | h
    · exact hseenlift _ _ hm3h h
    · exact hc4 _ h

/-- The demo scenario generator never consults the seen set it is given. -/
theorem generate_ignores_seen (s t : Finset String) (clk : Clock) :
    generate_enhanced_demo_scenarios s clk = generate_enhanced_demo_scenarios t clk := rfl

/-- Against the same static responses, the run after a persisted run
harvests nothing: every derivable url was either already seen or was
recorded by the first run. -/
theorem secondRun_harvested_nil (R : Responses) (fs : Option (List Char))
    (clk₁ clk₂ : Clock) (rng₁ rng₂ : List Nat) (f₁ : Bool)
    (hwf : dailymedWF R = true) (hterm : terminated fs)
    (hclean : ∀ u ∈ mainNewly R fs clk₁ rng₁ f₁, cleanUrl u) :
    (mainHarvested R (mainRun R fs clk₁ rng₁ f₁).2 clk₂ rng₂).1 = [] := by
  have hload : load_seen_urls (mainRun R fs clk₁ rng₁ f₁).2
      = load_seen_urls fs ∪ (mainNewly R fs clk₁ rng₁ f₁).toFinset := by
    rw [mainRun_snd]
    exact load_save_roundtrip fs _ hterm hclean
  have hcov := mainHarvested_covers R fs clk₁ rng₁
  have hincl : ∀ u : String,
      u ∈ mhSeen fs ∨ u ∈ (mainHarvested R fs clk₁ rng₁).2 →
      u ∈ mhSeen (mainRun R fs clk₁ rng₁ f₁).2 := by
    intro u hu
    show u ∈ load_seen_urls (mainRun R fs clk₁ rng₁ f₁).2
    rw [hload]
    rcases hu with h | h
    · exact Finset.mem_union_left _ h
    · exact Finset.mem_union_right _
        (List.mem_toFinset.mpr (mainNewly_mono R fs clk₁ rng₁ f₁ u h))
  have hI1 : mhI1 R (mainRun R fs clk₁ rng₁ f₁).2 clk₂ rng₂ = [] := by
    rw [List.eq_nil_iff_forall_not_mem]
    intro i hi
    obtain ⟨p, hp, fs2, hmem, hT, hurl, hns, h200⟩ :=
      harvest_dailymed_mem R _ clk₂ rng₂ i hi
    apply hns
    rw [hurl]
    exact Finset.mem_union_left _ (hincl _ (hcov.1 hwf p hp fs2 hmem hT h200))
  have hA1 : mhA1 R (mainRun R fs clk₁ rng₁ f₁).2 clk₂ rng₂ = ([], []) := by
    unfold mhA1
    rw [hI1]
    rfl
  have hI2 : mhI2 R (mainRun R fs clk₁ rng₁ f₁).2 clk₂ rng₂ = [] := by
    rw [List.eq_nil_iff_forall_not_mem]
    intro i hi
    obtain ⟨p, hp, event, hev, hurl, hns, hok⟩ := harvest_adverse_mem R _ clk₂ i hi
    rw [hurl] at hok
    rw [createAdverse_isOk_clock event (adverseDrugName event) _ clk₂ clk₁] at hok
    apply hns
    rw [hurl]
    exact Finset.mem_union_left _ (hincl _ (hcov.2.1 p hp event hev hok))
  have hA2 : mhA2 R (mainRun R fs clk₁ rng₁ f₁).2 clk₂ rng₂ = ([], []) := by
    unfold mhA2
    rw [hI2, hA1]
    rfl
  have hI3 : mhI3 R (mainRun R fs clk₁ rng₁ f₁).2 clk₂ rng₂ = [] := by
    rw [List.eq_nil_iff_forall_not_mem]
    intro i hi
    obtain ⟨t, ht, recallItem, hrc, hurl, hns, hok⟩ := harvest_recalls_mem R _ clk₂ i hi
    rw [hurl] at hok
    rw [createRecall_isOk_clock recallItem _ clk₂ clk₁] at hok
    apply hns
    rw [hurl]
    exact Finset.mem_union_left _ (hincl _ (hcov.2.2.1 t ht recallItem hrc hok))
  have hA3 : mhA3 R (mainRun R fs clk₁ rng₁ f₁).2 clk₂ rng₂ = ([], []) := by
    unfold mhA3
    rw [hI3, hA2]
    rfl
  have hI4 : mhI4 R (mainRun R fs clk₁ rng₁ f₁).2 clk₂ rng₂ = [] := by
    rw [List.eq_nil_iff_forall_not_mem]
    intro i hi
    obtain ⟨c, hc, study, hst, hT, hurl, hns, hok⟩ := harvest_trials_mem R _ clk₂ i hi
    rw [hurl] at hok
    rw [createTrial_isOk_clock study _ clk₂ clk₁] at hok
    apply hns
    rw [hurl]
    exact Finset.mem_union_left _ (hincl _ (hcov.2.2.2 c hc study hst hT hok))
  rw [mainHarvested_eq, hI4, hA3]
  rfl

/-- Static responses in which every request reports no results. -/
def staticEmptyResponses : Responses :=
  { trials := fun _ => ⟨404, none⟩
    adverse := fun _ => ⟨404, none⟩
    recalls := fun _ => ⟨404, none⟩
    dailymedSearch := fun _ => ⟨404, none⟩
    dailymedDetail := fun _ => ⟨404, none⟩ }

/-- C1 (counterexample): the full harvest is not idempotent as claimed.
Against a fixed static response set with no reset of the seen-set file, the
second run's batch holds 2 canonical records, not zero: the backfill demo
scenarios are regenerated and appended even though their urls are already in
the seen set, because `generate_enhanced_demo_scenarios` ignores the seen
set it is handed and `main` extends the batch with its output whenever fewer
than 15 items were harvested. -/
theorem C1_counterexample :
    (mainRun staticEmptyResponses
        (mainRun staticEmptyResponses none witClk [] false).2 witClk [] false).1.length = 2 ∧
    (2 : Nat) ≠ 0 := by
  constructor
  · decide
  · decide

/-- C1 (amended): running the orchestrator twice against the same static
responses, with no manual reset of the seen-set file, yields zero new
HARVESTED canonical records in the second batch; the second batch consists
of exactly the two fixed demo scenario records, which are re-appended on
every run.  Hypotheses: the DailyMed responses are well formed (no payload
aborts a facet mid-loop, which could otherwise delay an item to a later
run), the initial seen file ends at a line boundary (true of any file the
program itself wrote), and the urls recorded by the first run survive the
file round trip (strip-invariant, newline-free - true of every url the
program builds). -/
theorem C1_idempotence_amended (R : Responses) (fs : Option (List Char))
    (clk₁ clk₂ : Clock) (rng₁ rng₂ : List Nat) (f₁ f₂ : Bool)
    (hwf : dailymedWF R = true) (hterm : terminated fs)
    (hclean : ∀ u ∈ mainNewly R fs clk₁ rng₁ f₁, cleanUrl u) :
    (mainHarvested R (mainRun R fs clk₁ rng₁ f₁).2 clk₂ rng₂).1 = [] ∧
    (mainRun R (mainRun R fs clk₁ rng₁ f₁).2 clk₂ rng₂ f₂).1
      = generate_enhanced_demo_scenarios ∅ clk₂ := by
  have hnil := secondRun_harvested_nil R fs clk₁ clk₂ rng₁ rng₂ f₁ hwf hterm hclean
  refine ⟨hnil, ?_⟩
  generalize hfs2 : (mainRun R fs clk₁ rng₁ f₁).2 = fs₂ at hnil ⊢
  unfold mainRun
  dsimp only
  rw [if_pos (Or.inr (by rw [hnil]; decide))]
  dsimp only
  rw [hnil, List.nil_append]
  exact generate_ignores_seen _ _ clk₂

/-- C1 (witness): the amended statement at the concrete empty static
response set, all hypotheses discharged by evaluation. -/
theorem C1_witness :
    dailymedWF staticEmptyResponses = true ∧
    terminated (none : Option (List Char)) ∧
    (∀ u ∈ mainNewly staticEmptyResponses none witClk [] false, cleanUrl u) ∧
    (mainRun staticEmptyResponses (mainRun staticEmptyResponses none witClk [] false).2
        witClk [] false).1 = generate_enhanced_demo_scenarios ∅ witClk := by
  refine ⟨by decide, by decide, by decide, ?_⟩
  exact (C1_idempotence_amended staticEmptyResponses none witClk witClk [] [] false false
    (by decide) (by decide) (by decide)).2
